import Mathlib

/-!
# Vertex buffer interfaces of the D3D9 renderer (`libGLESv2/renderer/VertexBuffer.cpp`)

A shallow embedding of `rx::VertexBufferInterface` and of its two derivations,
`rx::StreamingVertexBufferInterface` and `rx::StaticVertexBufferInterface`.

* `std::size_t` values are natural numbers; every `size_t` operation of the source
  is reduced modulo `SIZE_RANGE w = 2 ^ w`, where `w` is the width of `size_t`
  on the target (32 or 64 for the targets of the renderer).
* `unsigned int` serial counters wrap modulo `UINT_RANGE = 2 ^ 32`.
* The static member `mCurrentSerial` is passed in and handed back explicitly.
* The backend (`Renderer9::createVertexBuffer`, `IDirect3DVertexBuffer9::Lock`,
  `Unlock`, `Release`) lives outside this file: the outcome of each call is an
  argument of the operation that makes it, and the calls made are recorded in a trace.
-/

namespace rx

/-! ## Machine integers -/

/-- Number of values of `unsigned int`. -/
def UINT_RANGE : Nat := 2 ^ 32

/-- Number of values of `std::size_t` when it is `w` bits wide. -/
def SIZE_RANGE (w : Nat) : Nat := 2 ^ w

/-- The value of `-1` converted to `std::size_t`, returned by `lookupAttribute`
when no element matches. -/
def NOT_FOUND (w : Nat) : Nat := SIZE_RANGE w - 1

/-! ## Backend calls -/

/-- Usage flags handed to `createVertexBuffer` by the two derivations. -/
inductive Usage where
  | D3DUSAGE_DYNAMIC_WRITEONLY
  | D3DUSAGE_WRITEONLY
deriving DecidableEq, Repr

/-- Flags handed to `IDirect3DVertexBuffer9::Lock`. -/
inductive LockFlags where
  | zero
  | D3DLOCK_NOOVERWRITE
  | D3DLOCK_DISCARD
deriving DecidableEq, Repr

/-- One call made on the backend, with the arguments the source passes. -/
inductive BackendCall where
  | createVertexBuffer (size : Nat) (usage : Usage)
  | Release
  | Lock (offsetToLock sizeToLock : Nat) (flags : LockFlags)
  | Unlock
deriving DecidableEq, Repr

/-! ## Data model -/

/-- Modelled from the spec: the attribute descriptor `gl::VertexAttribute` is declared
outside the source file. Its five read-only components are the element type
(`mType`), the component count (`mSize`), the byte stride (the value of `stride()`),
the normalization flag (`mNormalized`) and the byte offset (`mOffset`). -/
structure VertexAttribute where
  mType : Nat
  mSize : Int
  stride : Int
  mNormalized : Bool
  mOffset : Int
deriving DecidableEq, Repr

/-- An entry of `StaticVertexBufferInterface::mCache`, with the member names used by
`map` and `lookupAttribute`. -/
structure VertexElement where
  type : Nat
  size : Int
  stride : Int
  normalized : Bool
  attributeOffset : Int
  streamOffset : Nat
deriving DecidableEq, Repr

/-- The members of `VertexBufferInterface`. `mVertexBuffer = none` is the `NULL`
pointer. `mSerial = none` is a serial that has never been assigned: the constructor
leaves it uninitialised when `size` is 0. -/
structure VertexBufferInterface where
  mVertexBuffer : Option Nat
  mSerial : Option Nat
  mBufferSize : Nat
  mWritePosition : Nat
  mRequiredSpace : Nat
deriving DecidableEq, Repr

/-- The streaming derivation adds no member. -/
structure StreamingVertexBufferInterface extends VertexBufferInterface
deriving DecidableEq, Repr

/-- The static derivation adds the element cache. -/
structure StaticVertexBufferInterface extends VertexBufferInterface where
  mCache : List VertexElement
deriving DecidableEq, Repr

/-- Outcome of a constructor or of `reserveRequiredSpace`: the object, the static
counter `mCurrentSerial` afterwards, the backend calls made, and whether the
`UNREACHABLE()` statement was executed. -/
structure Pass (σ : Type) where
  self : σ
  mCurrentSerial : Nat
  calls : List BackendCall
  unreachable : Bool
deriving DecidableEq, Repr

/-- Outcome of `map`: the object, the returned pointer (`none` is `NULL`), the value
stored through the `offset` out-parameter (`none` when nothing is stored), and the
backend calls made. `divisionByZero` records that the call evaluated
`attribute.mOffset % attribute.stride()` with `stride()` equal to 0: that remainder is
undefined in C++ and the call does not return, so no pointer and no offset are
delivered, nothing is appended, and `self` is the object as the call found it. -/
structure Mapped (σ : Type) where
  self : σ
  mapPtr : Option Nat
  offset : Option Nat
  calls : List BackendCall
  divisionByZero : Bool := false
deriving DecidableEq, Repr

/-! ## `VertexBuffer` -/

/-- The member of the abstract `VertexBuffer`. -/
structure VertexBuffer where
  mSerial : Nat
deriving DecidableEq, Repr

/-- The initial value of the static counter `VertexBuffer::mNextSerial`. -/
def VertexBuffer.mNextSerial : Nat := 1

/-- The body of `updateSerial()`, `mSerial = mNextSerial++;`: the object and the counter
afterwards. -/
def VertexBuffer.updateSerial (mNextSerial : Nat) (_self : VertexBuffer) : VertexBuffer × Nat :=
  ({ mSerial := mNextSerial }, (mNextSerial + 1) % UINT_RANGE)

/-- The constructor `VertexBuffer()`, which calls `updateSerial()` on the new object. -/
def VertexBuffer.construct (mNextSerial : Nat) : VertexBuffer × Nat :=
  ({ mSerial := mNextSerial }, (mNextSerial + 1) % UINT_RANGE)

/-- The body of `VertexBuffer::getSerial()`. -/
def VertexBuffer.getSerial (self : VertexBuffer) : Nat :=
  self.mSerial

/-! ## `VertexBufferInterface` -/

/-- The initial value of the static counter `VertexBufferInterface::mCurrentSerial`. -/
def VertexBufferInterface.mCurrentSerial : Nat := 1

/-- The body of `issueSerial()`, `return mCurrentSerial++;`: the value returned and the
counter afterwards. -/
def VertexBufferInterface.issueSerial (mCurrentSerial : Nat) : Nat × Nat :=
  (mCurrentSerial, (mCurrentSerial + 1) % UINT_RANGE)

/-- The constructor `VertexBufferInterface(renderer, size, usageFlags)`.
`createResult` is the outcome of `createVertexBuffer`: `some h` stores the buffer
`h` in `mVertexBuffer`, `none` is a failed `HRESULT` and leaves it `NULL`. -/
def VertexBufferInterface.construct (mCurrentSerial : Nat) (size : Nat) (usageFlags : Usage)
    (createResult : Option Nat) : Pass VertexBufferInterface :=
  if size > 0 then
    { self :=
        { mVertexBuffer := createResult
          mSerial := some (VertexBufferInterface.issueSerial mCurrentSerial).1
          mBufferSize := size
          mWritePosition := 0
          mRequiredSpace := 0 }
      mCurrentSerial := (VertexBufferInterface.issueSerial mCurrentSerial).2
      calls := [BackendCall.createVertexBuffer size usageFlags]
      unreachable := false }
  else
    { self :=
        { mVertexBuffer := none
          mSerial := none
          mBufferSize := size
          mWritePosition := 0
          mRequiredSpace := 0 }
      mCurrentSerial := mCurrentSerial
      calls := []
      unreachable := false }

/-- The body of `unmap()`: the backend calls it makes; no member changes. -/
def VertexBufferInterface.unmap (s : VertexBufferInterface) : List BackendCall :=
  match s.mVertexBuffer with
  | some _ => [BackendCall.Unlock]
  | none => []

/-- The body of `getSerial()`. -/
def VertexBufferInterface.getSerial (s : VertexBufferInterface) : Option Nat :=
  s.mSerial

/-- The body of `addRequiredSpace(requiredSpace)`: `mRequiredSpace += requiredSpace`
in `size_t` arithmetic. -/
def VertexBufferInterface.addRequiredSpace (w : Nat) (s : VertexBufferInterface)
    (requiredSpace : Nat) : VertexBufferInterface :=
  { s with mRequiredSpace := (s.mRequiredSpace + requiredSpace) % SIZE_RANGE w }

/-! ## `StreamingVertexBufferInterface` -/

/-- The constructor `StreamingVertexBufferInterface(renderer, initialSize)`. -/
def StreamingVertexBufferInterface.construct (mCurrentSerial : Nat) (initialSize : Nat)
    (createResult : Option Nat) : Pass StreamingVertexBufferInterface :=
  let base := VertexBufferInterface.construct mCurrentSerial initialSize
    Usage.D3DUSAGE_DYNAMIC_WRITEONLY createResult
  { self := { toVertexBufferInterface := base.self }
    mCurrentSerial := base.mCurrentSerial
    calls := base.calls
    unreachable := base.unreachable }

/-- The inherited `addRequiredSpace`. -/
def StreamingVertexBufferInterface.addRequiredSpace (w : Nat)
    (s : StreamingVertexBufferInterface) (requiredSpace : Nat) :
    StreamingVertexBufferInterface :=
  { s with
    toVertexBufferInterface := s.toVertexBufferInterface.addRequiredSpace w requiredSpace }

/-- The body of `StreamingVertexBufferInterface::map`. `lockResult` is the outcome of
`Lock`: `some p` is success with the mapped pointer `p`, `none` a failed `HRESULT`. -/
def StreamingVertexBufferInterface.map (w : Nat) (s : StreamingVertexBufferInterface)
    (requiredSpace : Nat) (lockResult : Option Nat) :
    Mapped StreamingVertexBufferInterface :=
  match s.mVertexBuffer with
  | none => { self := s, mapPtr := none, offset := none, calls := [] }
  | some _ =>
    match lockResult with
    | none =>
      { self := s, mapPtr := none, offset := none
        calls := [BackendCall.Lock s.mWritePosition requiredSpace
          LockFlags.D3DLOCK_NOOVERWRITE] }
    | some mapPtr =>
      { self := { s with
          mWritePosition := (s.mWritePosition + requiredSpace) % SIZE_RANGE w }
        mapPtr := some mapPtr
        offset := some s.mWritePosition
        calls := [BackendCall.Lock s.mWritePosition requiredSpace
          LockFlags.D3DLOCK_NOOVERWRITE] }

/-- The body of `StreamingVertexBufferInterface::reserveRequiredSpace`.
`createResult` is the outcome of `createVertexBuffer` when the growth branch calls it. -/
def StreamingVertexBufferInterface.reserveRequiredSpace (w : Nat) (mCurrentSerial : Nat)
    (s : StreamingVertexBufferInterface) (createResult : Option Nat) :
    Pass StreamingVertexBufferInterface :=
  if s.mRequiredSpace > s.mBufferSize then
    let released : List BackendCall :=
      match s.mVertexBuffer with
      | some _ => [BackendCall.Release]
      | none => []
    let mBufferSize := max s.mRequiredSpace (((3 * s.mBufferSize) % SIZE_RANGE w) / 2)
    { self := { s with
        mVertexBuffer := createResult
        mBufferSize := mBufferSize
        mSerial := some (VertexBufferInterface.issueSerial mCurrentSerial).1
        mWritePosition := 0
        mRequiredSpace := 0 }
      mCurrentSerial := (VertexBufferInterface.issueSerial mCurrentSerial).2
      calls := released ++
        [BackendCall.createVertexBuffer mBufferSize Usage.D3DUSAGE_DYNAMIC_WRITEONLY]
      unreachable := false }
  else if (s.mWritePosition + s.mRequiredSpace) % SIZE_RANGE w > s.mBufferSize then
    let discard : List BackendCall :=
      match s.mVertexBuffer with
      | some _ => [BackendCall.Lock 0 1 LockFlags.D3DLOCK_DISCARD, BackendCall.Unlock]
      | none => []
    { self := { s with mWritePosition := 0, mRequiredSpace := 0 }
      mCurrentSerial := mCurrentSerial
      calls := discard
      unreachable := false }
  else
    { self := { s with mRequiredSpace := 0 }
      mCurrentSerial := mCurrentSerial
      calls := []
      unreachable := false }

/-! ## `StaticVertexBufferInterface` -/

/-- The constructor `StaticVertexBufferInterface(renderer)`: the base constructor
with `size` 0, and an empty cache. -/
def StaticVertexBufferInterface.construct (mCurrentSerial : Nat) :
    Pass StaticVertexBufferInterface :=
  let base := VertexBufferInterface.construct mCurrentSerial 0 Usage.D3DUSAGE_WRITEONLY none
  { self := { toVertexBufferInterface := base.self, mCache := [] }
    mCurrentSerial := base.mCurrentSerial
    calls := base.calls
    unreachable := base.unreachable }

/-- The inherited `addRequiredSpace`. -/
def StaticVertexBufferInterface.addRequiredSpace (w : Nat)
    (s : StaticVertexBufferInterface) (requiredSpace : Nat) :
    StaticVertexBufferInterface :=
  { s with
    toVertexBufferInterface := s.toVertexBufferInterface.addRequiredSpace w requiredSpace }

/-- The element `map` pushes for `attribute` when the write position is
`mWritePosition` and `attribute.stride()` is not 0. The remainder
`attribute.mOffset % attribute.stride()` of the source is the truncating remainder of
C++ (`Int.tmod`); `map` does not build the element when the stride is 0. -/
def StaticVertexBufferInterface.element (attrib : VertexAttribute)
    (mWritePosition : Nat) : VertexElement :=
  { type := attrib.mType
    size := attrib.mSize
    stride := attrib.stride
    normalized := attrib.mNormalized
    attributeOffset := Int.tmod attrib.mOffset attrib.stride
    streamOffset := mWritePosition }

/-- The body of `StaticVertexBufferInterface::map`. `lockResult` is the outcome of
`Lock`: `some p` is success with the mapped pointer `p`, `none` a failed `HRESULT`.
After a successful `Lock` the source evaluates `attribute.mOffset % attribute.stride()`:
with a stride of 0 the division by zero ends the call there (`divisionByZero`), before
the `push_back`, the offset store and the advance of the write position. -/
def StaticVertexBufferInterface.map (w : Nat) (s : StaticVertexBufferInterface)
    (attrib : VertexAttribute) (requiredSpace : Nat) (lockResult : Option Nat) :
    Mapped StaticVertexBufferInterface :=
  match s.mVertexBuffer with
  | none => { self := s, mapPtr := none, offset := none, calls := [] }
  | some _ =>
    match lockResult with
    | none =>
      { self := s, mapPtr := none, offset := none
        calls := [BackendCall.Lock s.mWritePosition requiredSpace LockFlags.zero] }
    | some mapPtr =>
      if attrib.stride = 0 then
        { self := s, mapPtr := none, offset := none
          calls := [BackendCall.Lock s.mWritePosition requiredSpace LockFlags.zero]
          divisionByZero := true }
      else
        { self := { s with
            mCache := s.mCache ++
              [StaticVertexBufferInterface.element attrib s.mWritePosition]
            mWritePosition := (s.mWritePosition + requiredSpace) % SIZE_RANGE w }
          mapPtr := some mapPtr
          offset := some s.mWritePosition
          calls := [BackendCall.Lock s.mWritePosition requiredSpace LockFlags.zero] }

/-- The body of `StaticVertexBufferInterface::reserveRequiredSpace`. `createResult` is
the outcome of `createVertexBuffer` when the first branch calls it. The third branch
executes `UNREACHABLE()`, a macro declared outside the source file: its execution is
recorded in `unreachable`, and `self` is the object once the statement after the
branches has run. -/
def StaticVertexBufferInterface.reserveRequiredSpace (mCurrentSerial : Nat)
    (s : StaticVertexBufferInterface) (createResult : Option Nat) :
    Pass StaticVertexBufferInterface :=
  if s.mVertexBuffer = none ∧ s.mBufferSize = 0 then
    { self := { s with
        mVertexBuffer := createResult
        mSerial := some (VertexBufferInterface.issueSerial mCurrentSerial).1
        mBufferSize := s.mRequiredSpace
        mRequiredSpace := 0 }
      mCurrentSerial := (VertexBufferInterface.issueSerial mCurrentSerial).2
      calls := [BackendCall.createVertexBuffer s.mRequiredSpace Usage.D3DUSAGE_WRITEONLY]
      unreachable := false }
  else if s.mVertexBuffer ≠ none ∧ s.mBufferSize ≥ s.mRequiredSpace then
    { self := { s with mRequiredSpace := 0 }
      mCurrentSerial := mCurrentSerial
      calls := []
      unreachable := false }
  else
    { self := { s with mRequiredSpace := 0 }
      mCurrentSerial := mCurrentSerial
      calls := []
      unreachable := true }

/-- The test of the loop body of `lookupAttribute`: the four components are equal and
the element's `attributeOffset` equals `attribute.mOffset % attribute.stride()`. The
source evaluates the remainder only when the four components are equal, so with an
element whose stride equals the attribute's; `map` caches no element of stride 0. -/
def VertexElement.matches (e : VertexElement) (attrib : VertexAttribute) : Bool :=
  (e.type == attrib.mType &&
    e.size == attrib.mSize &&
    e.stride == attrib.stride &&
    e.normalized == attrib.mNormalized) &&
  e.attributeOffset == Int.tmod attrib.mOffset attrib.stride

/-- The loop of `lookupAttribute` over the elements from the current index on, for a
`size_t` of `w` bits. The source indexes the cache with an `unsigned int`; the
recursion is that loop for a cache of fewer than `2 ^ 32` elements. -/
def StaticVertexBufferInterface.lookupFrom (w : Nat) (attrib : VertexAttribute) :
    List VertexElement → Nat
  | [] => NOT_FOUND w
  | e :: rest =>
    if e.matches attrib then e.streamOffset
    else StaticVertexBufferInterface.lookupFrom w attrib rest

/-- The body of `StaticVertexBufferInterface::lookupAttribute`. -/
def StaticVertexBufferInterface.lookupAttribute (w : Nat) (s : StaticVertexBufferInterface)
    (attrib : VertexAttribute) : Nat :=
  StaticVertexBufferInterface.lookupFrom w attrib s.mCache

/-! ## Sequences of operations -/

/-- The value of `mCurrentSerial` after `issueSerial` has been called `n` times. -/
def VertexBufferInterface.issueSerials : Nat → Nat → Nat
  | 0, mCurrentSerial => mCurrentSerial
  | n + 1, mCurrentSerial =>
    VertexBufferInterface.issueSerials n (VertexBufferInterface.issueSerial mCurrentSerial).2

/-- One call on a static interface, with the backend outcome the call meets. -/
inductive StaticOp where
  | addRequiredSpace (requiredSpace : Nat)
  | reserveRequiredSpace (createResult : Option Nat)
  | map (attrib : VertexAttribute) (requiredSpace : Nat) (lockResult : Option Nat)
  | unmap
  | lookupAttribute (attrib : VertexAttribute)
deriving DecidableEq, Repr

/-- The effect of one call on the pair of the static counter `mCurrentSerial` and the
object. -/
def StaticOp.apply (w : Nat) (st : Nat × StaticVertexBufferInterface) :
    StaticOp → Nat × StaticVertexBufferInterface
  | StaticOp.addRequiredSpace requiredSpace => (st.1, st.2.addRequiredSpace w requiredSpace)
  | StaticOp.reserveRequiredSpace createResult =>
    ((st.2.reserveRequiredSpace st.1 createResult).mCurrentSerial,
      (st.2.reserveRequiredSpace st.1 createResult).self)
  | StaticOp.map attrib requiredSpace lockResult =>
    (st.1, (st.2.map w attrib requiredSpace lockResult).self)
  | StaticOp.unmap => st
  | StaticOp.lookupAttribute _ => st

/-- The effect of a sequence of calls, first call first. A `map` that divides by zero
ends the run in the source; here the sequence goes on from the object that `map` left
untouched, so what holds of every sequence holds of those the source can run. -/
def StaticOp.run (w : Nat) (st : Nat × StaticVertexBufferInterface) (ops : List StaticOp) :
    Nat × StaticVertexBufferInterface :=
  ops.foldl (StaticOp.apply w) st

/-! ## Specification predicates -/

/-- The condition of the specification for a cache entry to answer a query: its type,
component count, stride and normalized flag equal the query's, and its layout offset
equals the query's offset modulo the query's stride (the remainder of the source). -/
def VertexElement.sameLayout (e : VertexElement) (attrib : VertexAttribute) : Prop :=
  e.type = attrib.mType ∧ e.size = attrib.mSize ∧ e.stride = attrib.stride ∧
    e.normalized = attrib.mNormalized ∧
    e.attributeOffset = Int.tmod attrib.mOffset attrib.stride

instance (e : VertexElement) (attrib : VertexAttribute) : Decidable (e.sameLayout attrib) := by
  unfold VertexElement.sameLayout
  infer_instance

/-! ## Sequences of constructions -/

/-- One construction of an interface: a streaming one, with its initial size and the
outcome of `createVertexBuffer`, or a static one. -/
inductive Construction where
  | streaming (initialSize : Nat) (createResult : Option Nat)
  | static
deriving DecidableEq, Repr

/-- The value `getSerial()` returns on the instance a construction builds when the
counter is `mCurrentSerial` (`none` when `mSerial` was left unassigned), and the counter
afterwards. -/
def Construction.build (mCurrentSerial : Nat) : Construction → Option Nat × Nat
  | Construction.streaming initialSize createResult =>
    ((StreamingVertexBufferInterface.construct mCurrentSerial initialSize
        createResult).self.getSerial,
      (StreamingVertexBufferInterface.construct mCurrentSerial initialSize
        createResult).mCurrentSerial)
  | Construction.static =>
    ((StaticVertexBufferInterface.construct mCurrentSerial).self.getSerial,
      (StaticVertexBufferInterface.construct mCurrentSerial).mCurrentSerial)

/-- The values of `getSerial()` on the instances built by a sequence of constructions
that share the counter, in construction order. -/
def Construction.serials (mCurrentSerial : Nat) : List Construction → List (Option Nat)
  | [] => []
  | k :: ks =>
    (k.build mCurrentSerial).1 :: Construction.serials (k.build mCurrentSerial).2 ks

/-- The constructions the specification says issue a serial: the streaming ones with an
initial size above 0. -/
def Construction.drawsSerial : Construction → Bool
  | Construction.streaming initialSize _ => decide (initialSize > 0)
  | Construction.static => false

/-- The value of `mCurrentSerial` after a sequence of constructions that share the
counter. -/
def Construction.counterAfter (mCurrentSerial : Nat) : List Construction → Nat
  | [] => mCurrentSerial
  | k :: ks => Construction.counterAfter (k.build mCurrentSerial).2 ks

/-- The order the specification states between the serials of two instances, the
first constructed before the second: both are assigned and the first is smaller. -/
def SerialBefore : Option Nat → Option Nat → Prop
  | some x, some y => x < y
  | _, _ => False

instance (a b : Option Nat) : Decidable (SerialBefore a b) := by
  cases a <;> cases b <;> unfold SerialBefore <;> infer_instance

/-! ## Sequences of streaming `map` calls -/

/-- The byte ranges `(offset, requiredSpace)` handed out by consecutive `map` calls on a
streaming interface with no other call in between: one range for each call that
stores an offset. A request is the `requiredSpace` argument and the outcome of `Lock`. -/
def StreamingVertexBufferInterface.mapAll (w : Nat) :
    StreamingVertexBufferInterface → List (Nat × Option Nat) → List (Nat × Nat)
  | _, [] => []
  | s, req :: rest =>
    match (s.map w req.1 req.2).offset with
    | some offset =>
      (offset, req.1) :: StreamingVertexBufferInterface.mapAll w (s.map w req.1 req.2).self rest
    | none => StreamingVertexBufferInterface.mapAll w (s.map w req.1 req.2).self rest

/-- Two byte ranges `[offset, offset + requiredSpace)` have no byte in common. -/
def ByteRangesDisjoint (r1 r2 : Nat × Nat) : Prop :=
  ∀ byte : Nat, ¬ ((r1.1 ≤ byte ∧ byte < r1.1 + r1.2) ∧ (r2.1 ≤ byte ∧ byte < r2.1 + r2.2))

/-! ## Sequences of calls on a streaming interface -/

/-- One call on a streaming interface, with the backend outcome the call meets. -/
inductive StreamingOp where
  | addRequiredSpace (requiredSpace : Nat)
  | reserveRequiredSpace (createResult : Option Nat)
  | map (requiredSpace : Nat) (lockResult : Option Nat)
  | unmap
deriving DecidableEq, Repr

/-- The effect of one call on the pair of the static counter `mCurrentSerial` and the
object. -/
def StreamingOp.apply (w : Nat) (st : Nat × StreamingVertexBufferInterface) :
    StreamingOp → Nat × StreamingVertexBufferInterface
  | StreamingOp.addRequiredSpace requiredSpace =>
    (st.1, st.2.addRequiredSpace w requiredSpace)
  | StreamingOp.reserveRequiredSpace createResult =>
    ((st.2.reserveRequiredSpace w st.1 createResult).mCurrentSerial,
      (st.2.reserveRequiredSpace w st.1 createResult).self)
  | StreamingOp.map requiredSpace lockResult =>
    (st.1, (st.2.map w requiredSpace lockResult).self)
  | StreamingOp.unmap => st

/-- The effect of a sequence of calls, first call first. -/
def StreamingOp.run (w : Nat) (st : Nat × StreamingVertexBufferInterface)
    (ops : List StreamingOp) : Nat × StreamingVertexBufferInterface :=
  ops.foldl (StreamingOp.apply w) st

/-- No reservation pass of the sequence successfully creates a resource: every pass
met with `mRequiredSpace > mBufferSize` has its `createVertexBuffer` call fail. -/
def StreamingOp.noCreation (w : Nat) :
    Nat × StreamingVertexBufferInterface → List StreamingOp → Prop
  | _, [] => True
  | st, StreamingOp.reserveRequiredSpace createResult :: rest =>
    (st.2.mRequiredSpace > st.2.mBufferSize → createResult = none) ∧
      StreamingOp.noCreation w
        (StreamingOp.apply w st (StreamingOp.reserveRequiredSpace createResult)) rest
  | st, op :: rest => StreamingOp.noCreation w (StreamingOp.apply w st op) rest

/-- No reservation pass of the sequence is met with `mRequiredSpace > mBufferSize`. -/
def StreamingOp.noGrowth (w : Nat) :
    Nat × StreamingVertexBufferInterface → List StreamingOp → Prop
  | _, [] => True
  | st, StreamingOp.reserveRequiredSpace createResult :: rest =>
    st.2.mRequiredSpace ≤ st.2.mBufferSize ∧
      StreamingOp.noGrowth w
        (StreamingOp.apply w st (StreamingOp.reserveRequiredSpace createResult)) rest
  | st, op :: rest => StreamingOp.noGrowth w (StreamingOp.apply w st op) rest

/-- Whether a sequence of calls is one without a creation can be computed. -/
def StreamingOp.decideNoCreation (w : Nat) :
    (st : Nat × StreamingVertexBufferInterface) → (ops : List StreamingOp) →
      Decidable (StreamingOp.noCreation w st ops)
  | _, [] => isTrue trivial
  | st, StreamingOp.reserveRequiredSpace createResult :: rest =>
    have := StreamingOp.decideNoCreation w
      (StreamingOp.apply w st (StreamingOp.reserveRequiredSpace createResult)) rest
    inferInstanceAs (Decidable
      ((st.2.mRequiredSpace > st.2.mBufferSize → createResult = none) ∧
        StreamingOp.noCreation w
          (StreamingOp.apply w st (StreamingOp.reserveRequiredSpace createResult)) rest))
  | st, StreamingOp.addRequiredSpace requiredSpace :: rest =>
    StreamingOp.decideNoCreation w
      (StreamingOp.apply w st (StreamingOp.addRequiredSpace requiredSpace)) rest
  | st, StreamingOp.map requiredSpace lockResult :: rest =>
    StreamingOp.decideNoCreation w
      (StreamingOp.apply w st (StreamingOp.map requiredSpace lockResult)) rest
  | st, StreamingOp.unmap :: rest =>
    StreamingOp.decideNoCreation w (StreamingOp.apply w st StreamingOp.unmap) rest

instance (w : Nat) (st : Nat × StreamingVertexBufferInterface) (ops : List StreamingOp) :
    Decidable (StreamingOp.noCreation w st ops) :=
  StreamingOp.decideNoCreation w st ops

/-- Whether a sequence of calls is one without a growth pass can be computed. -/
def StreamingOp.decideNoGrowth (w : Nat) :
    (st : Nat × StreamingVertexBufferInterface) → (ops : List StreamingOp) →
      Decidable (StreamingOp.noGrowth w st ops)
  | _, [] => isTrue trivial
  | st, StreamingOp.reserveRequiredSpace createResult :: rest =>
    have := StreamingOp.decideNoGrowth w
      (StreamingOp.apply w st (StreamingOp.reserveRequiredSpace createResult)) rest
    inferInstanceAs (Decidable
      (st.2.mRequiredSpace ≤ st.2.mBufferSize ∧
        StreamingOp.noGrowth w
          (StreamingOp.apply w st (StreamingOp.reserveRequiredSpace createResult)) rest))
  | st, StreamingOp.addRequiredSpace requiredSpace :: rest =>
    StreamingOp.decideNoGrowth w
      (StreamingOp.apply w st (StreamingOp.addRequiredSpace requiredSpace)) rest
  | st, StreamingOp.map requiredSpace lockResult :: rest =>
    StreamingOp.decideNoGrowth w
      (StreamingOp.apply w st (StreamingOp.map requiredSpace lockResult)) rest
  | st, StreamingOp.unmap :: rest =>
    StreamingOp.decideNoGrowth w (StreamingOp.apply w st StreamingOp.unmap) rest

instance (w : Nat) (st : Nat × StreamingVertexBufferInterface) (ops : List StreamingOp) :
    Decidable (StreamingOp.noGrowth w st ops) :=
  StreamingOp.decideNoGrowth w st ops

/-! ## The two serial counters -/

/-- The value of `mNextSerial` after `updateSerial` has been called `n` times. -/
def VertexBuffer.updateSerials : Nat → Nat → Nat
  | 0, mNextSerial => mNextSerial
  | n + 1, mNextSerial =>
    VertexBuffer.updateSerials n (VertexBuffer.updateSerial mNextSerial ⟨0⟩).2

/-- The serial the `k`-th call of `issueSerial` returns (`k` from 1), the counter
starting at its initial value. -/
def VertexBufferInterface.nthSerial (k : Nat) : Nat :=
  (VertexBufferInterface.issueSerial
    (VertexBufferInterface.issueSerials (k - 1) VertexBufferInterface.mCurrentSerial)).1

/-- The serial the `k`-th call of `updateSerial` assigns (`k` from 1), the counter
starting at its initial value. -/
def VertexBuffer.nthSerial (k : Nat) : Nat :=
  (VertexBuffer.updateSerial
    (VertexBuffer.updateSerials (k - 1) VertexBuffer.mNextSerial) ⟨0⟩).1.getSerial

/-- The two static counters of the source file side by side. -/
structure Counters where
  mNextSerial : Nat
  mCurrentSerial : Nat
deriving DecidableEq, Repr

/-- A call of `VertexBufferInterface::issueSerial` seen on both counters. -/
def Counters.issueSerial (g : Counters) : Nat × Counters :=
  ((VertexBufferInterface.issueSerial g.mCurrentSerial).1,
    { g with mCurrentSerial := (VertexBufferInterface.issueSerial g.mCurrentSerial).2 })

/-- A call of `VertexBuffer::updateSerial` seen on both counters. -/
def Counters.updateSerial (g : Counters) (self : VertexBuffer) : VertexBuffer × Counters :=
  ((VertexBuffer.updateSerial g.mNextSerial self).1,
    { g with mNextSerial := (VertexBuffer.updateSerial g.mNextSerial self).2 })

/-! ## Sequences of `map` calls after a pass -/

/-- The byte ranges `(offset, requiredSpace)` handed out by consecutive `map` calls on a
static interface with no other call in between: one range for each call that stores
an offset. A request is the attribute, the `requiredSpace` argument and the outcome of
`Lock`. -/
def StaticVertexBufferInterface.mapAll (w : Nat) :
    StaticVertexBufferInterface → List (VertexAttribute × Nat × Option Nat) →
      List (Nat × Nat)
  | _, [] => []
  | s, req :: rest =>
    match (s.map w req.1 req.2.1 req.2.2).offset with
    | some offset =>
      (offset, req.2.1) ::
        StaticVertexBufferInterface.mapAll w (s.map w req.1 req.2.1 req.2.2).self rest
    | none => StaticVertexBufferInterface.mapAll w (s.map w req.1 req.2.1 req.2.2).self rest

/-- The streaming interface after consecutive `map` calls with no other call in
between. -/
def StreamingVertexBufferInterface.mapAllSelf (w : Nat) (s : StreamingVertexBufferInterface)
    (reqs : List (Nat × Option Nat)) : StreamingVertexBufferInterface :=
  reqs.foldl (fun t req => (t.map w req.1 req.2).self) s

/-! ## Byte ranges handed out over a sequence of calls on a streaming interface -/

/-- Whether a call is a reservation pass. -/
def StreamingOp.isPass : StreamingOp → Bool
  | StreamingOp.reserveRequiredSpace _ => true
  | _ => false

/-- The byte ranges `(offset, requiredSpace)` handed out by the `map` calls of a sequence
of calls on a streaming interface, one range for each `map` that stores an offset, in
call order. -/
def StreamingOp.ranges (w : Nat) :
    Nat × StreamingVertexBufferInterface → List StreamingOp → List (Nat × Nat)
  | _, [] => []
  | st, StreamingOp.map requiredSpace lockResult :: rest =>
    match (st.2.map w requiredSpace lockResult).offset with
    | some offset =>
      (offset, requiredSpace) ::
        StreamingOp.ranges w
          (StreamingOp.apply w st (StreamingOp.map requiredSpace lockResult)) rest
    | none =>
      StreamingOp.ranges w
        (StreamingOp.apply w st (StreamingOp.map requiredSpace lockResult)) rest
  | st, op :: rest => StreamingOp.ranges w (StreamingOp.apply w st op) rest

/-! ## Serial counter -/

/-- After `n` calls of `issueSerial` the counter has advanced by `n`, modulo the range
of `unsigned int`. -/
theorem issueSerials_eq (n c : Nat) (hc : c < UINT_RANGE) :
    VertexBufferInterface.issueSerials n c = (c + n) % UINT_RANGE := by
  induction n generalizing c with
  | zero => simp [VertexBufferInterface.issueSerials, Nat.mod_eq_of_lt hc]
  | succ k ih =>
    have hlt : (c + 1) % UINT_RANGE < UINT_RANGE := Nat.mod_lt _ (by decide)
    simp only [VertexBufferInterface.issueSerials, VertexBufferInterface.issueSerial]
    rw [ih _ hlt, Nat.add_mod, Nat.mod_mod, ← Nat.add_mod]
    congr 1
    omega

/-! ## Streaming `reserveRequiredSpace` -/

/-- Claim C1 fails as stated, at two inputs. First, with a 32-bit `size_t`, a streaming
interface constructed with 2147483648 bytes and asked for 2147483649: the product
`3 * mBufferSize` wraps, the new capacity is 2147483649 and not
`max 2147483649 (2147483648 * 3 / 2) = 3221225472`. Second, an interface constructed
with serial 7 and reserved when the counter, after 4294967295 further serials, is 7
again: the serial issued by the growth pass is the serial it already had. -/
theorem streaming_reserve_growth_counterexample :
    ((StreamingVertexBufferInterface.construct 1 2147483648 (some 0)).self.addRequiredSpace 32
        2147483649).mRequiredSpace >
      ((StreamingVertexBufferInterface.construct 1 2147483648 (some 0)).self.addRequiredSpace 32
        2147483649).mBufferSize ∧
    (StreamingVertexBufferInterface.reserveRequiredSpace 32 2
      ((StreamingVertexBufferInterface.construct 1 2147483648 (some 0)).self.addRequiredSpace 32
        2147483649) (some 1)).self.mBufferSize = 2147483649 ∧
    max 2147483649 (2147483648 * 3 / 2) = 3221225472 ∧
    ((StreamingVertexBufferInterface.construct 7 64 (some 0)).self.addRequiredSpace 32
      100).mSerial = some 7 ∧
    VertexBufferInterface.issueSerials 4294967295
      (StreamingVertexBufferInterface.construct 7 64 (some 0)).mCurrentSerial = 7 ∧
    (StreamingVertexBufferInterface.reserveRequiredSpace 32 7
      ((StreamingVertexBufferInterface.construct 7 64 (some 0)).self.addRequiredSpace 32 100)
      (some 1)).self.mSerial = some 7 := by
  refine ⟨by decide, by decide, by decide, by decide, ?_, by decide⟩
  have h8 : (StreamingVertexBufferInterface.construct 7 64 (some 0)).mCurrentSerial = 8 := by
    decide
  rw [h8, issueSerials_eq 4294967295 8 (by decide)]
  decide

/-- Claim C1, amended: every streaming pass with `mRequiredSpace > mBufferSize` sets the
write position to 0, assigns the counter's current value as the serial and advances the
counter by one modulo the range of `unsigned int`, and sets the capacity to
`max mRequiredSpace ((3 * mBufferSize mod 2 ^ w) / 2)`, which is
`max mRequiredSpace (mBufferSize * 3 / 2)` when `3 * mBufferSize` does not overflow
`size_t`. The new serial differs from the serial held before exactly when that serial
is not the counter's current value: so it differs when the serial was unassigned, and
when it was issued from the counter `k` draws earlier with `1 ≤ k < 2 ^ 32`. -/
theorem streaming_reserve_growth (w mCurrentSerial : Nat) (s : StreamingVertexBufferInterface)
    (createResult : Option Nat)
    (hgrow : s.mRequiredSpace > s.mBufferSize) :
    (s.reserveRequiredSpace w mCurrentSerial createResult).self.mWritePosition = 0 ∧
      (s.reserveRequiredSpace w mCurrentSerial createResult).self.mSerial =
        some mCurrentSerial ∧
      (s.reserveRequiredSpace w mCurrentSerial createResult).mCurrentSerial =
        (mCurrentSerial + 1) % UINT_RANGE ∧
      (s.reserveRequiredSpace w mCurrentSerial createResult).self.mBufferSize =
        max s.mRequiredSpace (3 * s.mBufferSize % SIZE_RANGE w / 2) ∧
      (3 * s.mBufferSize < SIZE_RANGE w →
        (s.reserveRequiredSpace w mCurrentSerial createResult).self.mBufferSize =
          max s.mRequiredSpace (s.mBufferSize * 3 / 2)) ∧
      ((s.reserveRequiredSpace w mCurrentSerial createResult).self.mSerial ≠ s.mSerial ↔
        s.mSerial ≠ some mCurrentSerial) ∧
      (s.mSerial = none →
        (s.reserveRequiredSpace w mCurrentSerial createResult).self.mSerial ≠ s.mSerial) ∧
      (∀ v k : Nat, s.mSerial = some v → v < UINT_RANGE → 1 ≤ k → k < UINT_RANGE →
        mCurrentSerial = VertexBufferInterface.issueSerials k v →
        (s.reserveRequiredSpace w mCurrentSerial createResult).self.mSerial ≠ s.mSerial) := by
  have hser : (s.reserveRequiredSpace w mCurrentSerial createResult).self.mSerial =
      some mCurrentSerial := by
    simp only [StreamingVertexBufferInterface.reserveRequiredSpace, if_pos hgrow,
      VertexBufferInterface.issueSerial]
  have hcap : (s.reserveRequiredSpace w mCurrentSerial createResult).self.mBufferSize =
      max s.mRequiredSpace (3 * s.mBufferSize % SIZE_RANGE w / 2) := by
    simp only [StreamingVertexBufferInterface.reserveRequiredSpace, if_pos hgrow]
  refine ⟨?_, hser, ?_, hcap, ?_, ?_, ?_, ?_⟩
  · simp only [StreamingVertexBufferInterface.reserveRequiredSpace, if_pos hgrow]
  · simp only [StreamingVertexBufferInterface.reserveRequiredSpace, if_pos hgrow,
      VertexBufferInterface.issueSerial]
  · intro hfit
    rw [hcap, Nat.mod_eq_of_lt hfit, Nat.mul_comm]
  · rw [hser]
    exact ⟨fun h heq => h heq.symm, fun h heq => h heq.symm⟩
  · intro hnone
    rw [hser, hnone]
    exact fun h => Option.noConfusion h
  · intro v k hv hvlt hk1 hk2 hc
    rw [hser, hv]
    intro heq
    have hcv : mCurrentSerial = v := Option.some.inj heq
    rw [issueSerials_eq k v hvlt] at hc
    have hR : UINT_RANGE = 4294967296 := by decide
    rw [hR] at hc hvlt hk2
    omega

/-- The scenario of claim C1: capacity 64 and a request of 100 give capacity 100, write
position 0 and the serial 2, which differs from the serial 1 issued one draw earlier. -/
theorem streaming_reserve_growth_witness :
    (StreamingVertexBufferInterface.reserveRequiredSpace 32 2
        ((StreamingVertexBufferInterface.construct 1 64 (some 0)).self.addRequiredSpace 32 100)
        (some 1)).self.mBufferSize = 100 ∧
      (StreamingVertexBufferInterface.reserveRequiredSpace 32 2
        ((StreamingVertexBufferInterface.construct 1 64 (some 0)).self.addRequiredSpace 32 100)
        (some 1)).self.mWritePosition = 0 ∧
      (StreamingVertexBufferInterface.reserveRequiredSpace 32 2
        ((StreamingVertexBufferInterface.construct 1 64 (some 0)).self.addRequiredSpace 32 100)
        (some 1)).self.mSerial = some 2 ∧
      (StreamingVertexBufferInterface.reserveRequiredSpace 32 2
        ((StreamingVertexBufferInterface.construct 1 64 (some 0)).self.addRequiredSpace 32 100)
        (some 1)).self.mSerial ≠
      ((StreamingVertexBufferInterface.construct 1 64 (some 0)).self.addRequiredSpace 32
        100).mSerial :=
  have h := streaming_reserve_growth 32 2
    ((StreamingVertexBufferInterface.construct 1 64 (some 0)).self.addRequiredSpace 32 100)
    (some 1) (by decide)
  ⟨(h.2.2.2.2.1 (by decide)).trans (by decide), h.1, h.2.1,
    h.2.2.2.2.2.2.2 1 1 (by decide) (by decide) (by decide) (by decide) (by decide)⟩

/-- Claim C2 fails as stated. With a 32-bit `size_t`, a streaming interface of
capacity 3221225472 whose write position has reached 3221225472 and which is asked
for 1073741824 more bytes: the request fits the capacity and
`mWritePosition + mRequiredSpace` exceeds it, but the sum wraps to 0 in `size_t`,
the recycle test is false and the write position stays 3221225472. -/
theorem streaming_reserve_recycle_counterexample :
    (((StreamingVertexBufferInterface.construct 1 3221225472 (some 0)).self.map 32
        3221225472 (some 0)).self.addRequiredSpace 32 1073741824).mBufferSize = 3221225472 ∧
    (((StreamingVertexBufferInterface.construct 1 3221225472 (some 0)).self.map 32
        3221225472 (some 0)).self.addRequiredSpace 32 1073741824).mWritePosition =
      3221225472 ∧
    (((StreamingVertexBufferInterface.construct 1 3221225472 (some 0)).self.map 32
        3221225472 (some 0)).self.addRequiredSpace 32 1073741824).mRequiredSpace =
      1073741824 ∧
    1073741824 ≤ 3221225472 ∧ 3221225472 + 1073741824 > 3221225472 ∧
    (StreamingVertexBufferInterface.reserveRequiredSpace 32 2
      (((StreamingVertexBufferInterface.construct 1 3221225472 (some 0)).self.map 32
        3221225472 (some 0)).self.addRequiredSpace 32 1073741824)
      none).self.mWritePosition = 3221225472 := by
  decide

/-- Claim C2, amended: a streaming pass with `mRequiredSpace ≤ mBufferSize` and
`mWritePosition + mRequiredSpace > mBufferSize`, where that sum does not overflow
`size_t`, sets the write position to 0, leaves the serial, the capacity and the
resource unchanged and leaves the counter unchanged (no serial is drawn); it makes
no `createVertexBuffer` call. -/
theorem streaming_reserve_recycle (w mCurrentSerial : Nat) (s : StreamingVertexBufferInterface)
    (createResult : Option Nat)
    (hle : s.mRequiredSpace ≤ s.mBufferSize)
    (hfull : s.mWritePosition + s.mRequiredSpace > s.mBufferSize)
    (hfit : s.mWritePosition + s.mRequiredSpace < SIZE_RANGE w) :
    (s.reserveRequiredSpace w mCurrentSerial createResult).self.mWritePosition = 0 ∧
      (s.reserveRequiredSpace w mCurrentSerial createResult).self.mSerial = s.mSerial ∧
      (s.reserveRequiredSpace w mCurrentSerial createResult).self.mBufferSize =
        s.mBufferSize ∧
      (s.reserveRequiredSpace w mCurrentSerial createResult).self.mVertexBuffer =
        s.mVertexBuffer ∧
      (s.reserveRequiredSpace w mCurrentSerial createResult).mCurrentSerial =
        mCurrentSerial ∧
      ∀ size usage, BackendCall.createVertexBuffer size usage ∉
        (s.reserveRequiredSpace w mCurrentSerial createResult).calls := by
  have hng : ¬ s.mRequiredSpace > s.mBufferSize := Nat.not_lt.mpr hle
  have hrec : (s.mWritePosition + s.mRequiredSpace) % SIZE_RANGE w > s.mBufferSize := by
    rw [Nat.mod_eq_of_lt hfit]; exact hfull
  simp only [StreamingVertexBufferInterface.reserveRequiredSpace, if_neg hng, if_pos hrec]
  refine ⟨trivial, trivial, trivial, trivial, trivial, ?_⟩
  intro size usage
  cases s.mVertexBuffer <;> simp

/-- The scenario of claim C2: capacity 100, write position 40, request 70. -/
theorem streaming_reserve_recycle_witness :
    (StreamingVertexBufferInterface.reserveRequiredSpace 32 2
        (((StreamingVertexBufferInterface.construct 1 100 (some 0)).self.map 32 40
          (some 0)).self.addRequiredSpace 32 70) none).self.mWritePosition = 0 ∧
      (StreamingVertexBufferInterface.reserveRequiredSpace 32 2
        (((StreamingVertexBufferInterface.construct 1 100 (some 0)).self.map 32 40
          (some 0)).self.addRequiredSpace 32 70) none).self.mSerial = some 1 ∧
      (StreamingVertexBufferInterface.reserveRequiredSpace 32 2
        (((StreamingVertexBufferInterface.construct 1 100 (some 0)).self.map 32 40
          (some 0)).self.addRequiredSpace 32 70) none).mCurrentSerial = 2 :=
  have h := streaming_reserve_recycle 32 2
    (((StreamingVertexBufferInterface.construct 1 100 (some 0)).self.map 32 40
      (some 0)).self.addRequiredSpace 32 70) none (by decide) (by decide) (by decide)
  ⟨h.1, h.2.1.trans (by decide), h.2.2.2.2.1⟩

/-- Claim C3: a streaming pass with `mRequiredSpace ≤ mBufferSize` and
`mWritePosition + mRequiredSpace ≤ mBufferSize` changes no member other than
`mRequiredSpace`, which it resets: write position, capacity, serial and resource are
unchanged, the counter is unchanged and no backend call is made. -/
theorem streaming_reserve_no_action (w mCurrentSerial : Nat)
    (s : StreamingVertexBufferInterface) (createResult : Option Nat)
    (hle : s.mRequiredSpace ≤ s.mBufferSize)
    (hroom : s.mWritePosition + s.mRequiredSpace ≤ s.mBufferSize) :
    (s.reserveRequiredSpace w mCurrentSerial createResult).self.mWritePosition =
        s.mWritePosition ∧
      (s.reserveRequiredSpace w mCurrentSerial createResult).self.mBufferSize =
        s.mBufferSize ∧
      (s.reserveRequiredSpace w mCurrentSerial createResult).self.mSerial = s.mSerial ∧
      (s.reserveRequiredSpace w mCurrentSerial createResult).self.mVertexBuffer =
        s.mVertexBuffer ∧
      (s.reserveRequiredSpace w mCurrentSerial createResult).mCurrentSerial =
        mCurrentSerial ∧
      (s.reserveRequiredSpace w mCurrentSerial createResult).calls = [] ∧
      (s.reserveRequiredSpace w mCurrentSerial createResult).self =
        { s with mRequiredSpace := 0 } := by
  have hng : ¬ s.mRequiredSpace > s.mBufferSize := Nat.not_lt.mpr hle
  have hnr : ¬ (s.mWritePosition + s.mRequiredSpace) % SIZE_RANGE w > s.mBufferSize :=
    Nat.not_lt.mpr (Nat.le_trans (Nat.mod_le _ _) hroom)
  simp only [StreamingVertexBufferInterface.reserveRequiredSpace, if_neg hng, if_neg hnr]
  exact ⟨trivial, trivial, trivial, trivial, trivial, trivial, trivial⟩

/-- An instance of claim C3: capacity 100, write position 40, request 60. -/
theorem streaming_reserve_no_action_witness :
    (StreamingVertexBufferInterface.reserveRequiredSpace 32 2
        (((StreamingVertexBufferInterface.construct 1 100 (some 0)).self.map 32 40
          (some 0)).self.addRequiredSpace 32 60) none).self.mWritePosition = 40 ∧
      (StreamingVertexBufferInterface.reserveRequiredSpace 32 2
        (((StreamingVertexBufferInterface.construct 1 100 (some 0)).self.map 32 40
          (some 0)).self.addRequiredSpace 32 60) none).self.mBufferSize = 100 :=
  have h := streaming_reserve_no_action 32 2
    (((StreamingVertexBufferInterface.construct 1 100 (some 0)).self.map 32 40
      (some 0)).self.addRequiredSpace 32 60) none (by decide) (by decide)
  ⟨h.1.trans (by decide), h.2.1.trans (by decide)⟩

/-! ## The accumulator after a pass -/

/-- Claim C4: for both derivations, from every object, after every sequence of
`addRequiredSpace` calls, `mRequiredSpace` is 0 once `reserveRequiredSpace` has run its
last statement, whichever branch was taken and whatever the backend answered. -/
theorem reserve_resets_required_space (w mCurrentSerial : Nat) (createResult : Option Nat)
    (requests : List Nat) :
    (∀ s : StreamingVertexBufferInterface,
      ((requests.foldl (StreamingVertexBufferInterface.addRequiredSpace w)
        s).reserveRequiredSpace w mCurrentSerial createResult).self.mRequiredSpace = 0) ∧
    (∀ s : StaticVertexBufferInterface,
      ((requests.foldl (StaticVertexBufferInterface.addRequiredSpace w)
        s).reserveRequiredSpace mCurrentSerial createResult).self.mRequiredSpace = 0) := by
  constructor
  · intro s
    generalize requests.foldl (StreamingVertexBufferInterface.addRequiredSpace w) s = t
    unfold StreamingVertexBufferInterface.reserveRequiredSpace
    split_ifs <;> rfl
  · intro s
    generalize requests.foldl (StaticVertexBufferInterface.addRequiredSpace w) s = t
    unfold StaticVertexBufferInterface.reserveRequiredSpace
    split_ifs <;> rfl

/-! ## `lookupAttribute` -/

/-- The test of the loop body holds exactly when the entry has the layout of the
query. -/
theorem matches_iff_sameLayout (e : VertexElement) (attrib : VertexAttribute) :
    e.matches attrib = true ↔ e.sameLayout attrib := by
  simp [VertexElement.matches, VertexElement.sameLayout, and_assoc]

/-- The scan returns the stream offset of the first element that passes the test. -/
theorem lookupFrom_first (w : Nat) (attrib : VertexAttribute) (pre post : List VertexElement)
    (e : VertexElement) (hpre : ∀ x ∈ pre, ¬ x.sameLayout attrib) (he : e.sameLayout attrib) :
    StaticVertexBufferInterface.lookupFrom w attrib (pre ++ e :: post) = e.streamOffset := by
  induction pre with
  | nil =>
    simp [StaticVertexBufferInterface.lookupFrom, (matches_iff_sameLayout e attrib).mpr he]
  | cons x xs ih =>
    have hx : ¬ x.matches attrib = true := fun h =>
      hpre x (List.mem_cons_self x xs) ((matches_iff_sameLayout x attrib).mp h)
    simp only [List.cons_append, StaticVertexBufferInterface.lookupFrom, if_neg hx]
    exact ih (fun y hy => hpre y (List.mem_cons_of_mem x hy))

/-- The scan returns the sentinel when no element passes the test. -/
theorem lookupFrom_none (w : Nat) (attrib : VertexAttribute) (cache : List VertexElement)
    (hnone : ∀ x ∈ cache, ¬ x.sameLayout attrib) :
    StaticVertexBufferInterface.lookupFrom w attrib cache = NOT_FOUND w := by
  induction cache with
  | nil => rfl
  | cons x xs ih =>
    have hx : ¬ x.matches attrib = true := fun h =>
      hnone x (List.mem_cons_self x xs) ((matches_iff_sameLayout x attrib).mp h)
    simp only [StaticVertexBufferInterface.lookupFrom, if_neg hx]
    exact ih (fun y hy => hnone y (List.mem_cons_of_mem x hy))

/-- Either no element passes the test, or the cache splits at its first element that
does. -/
theorem first_sameLayout_split (attrib : VertexAttribute) (cache : List VertexElement) :
    (∀ x ∈ cache, ¬ x.sameLayout attrib) ∨
    ∃ pre e post, cache = pre ++ e :: post ∧ (∀ x ∈ pre, ¬ x.sameLayout attrib) ∧
      e.sameLayout attrib := by
  induction cache with
  | nil => left; simp
  | cons x xs ih =>
    by_cases hx : x.sameLayout attrib
    · right; exact ⟨[], x, xs, rfl, by simp, hx⟩
    · rcases ih with h | ⟨pre, e, post, hsplit, hpre, he⟩
      · left
        intro y hy
        rcases List.mem_cons.mp hy with rfl | hy
        · exact hx
        · exact h y hy
      · right
        refine ⟨x :: pre, e, post, by simp [hsplit], ?_, he⟩
        intro y hy
        rcases List.mem_cons.mp hy with rfl | hy
        · exact hx
        · exact hpre y hy

/-- Claim C5 fails as stated. With a 32-bit `size_t`, a static interface allocated
with 4294967295 bytes, filled by a first `map` of 4294967295 bytes, then mapped for a
second attribute with 0 bytes: the second entry has `streamOffset = 4294967295`, it
satisfies the condition for the second attribute, and `lookupAttribute` returns
4294967295, which is the sentinel `(size_t)-1`. -/
theorem lookupAttribute_counterexample :
    (StaticOp.run 32 (1, (StaticVertexBufferInterface.construct 1).self)
      [StaticOp.addRequiredSpace 4294967295, StaticOp.reserveRequiredSpace (some 0),
        StaticOp.map ⟨5126, 3, 12, false, 0⟩ 4294967295 (some 0),
        StaticOp.map ⟨5126, 2, 8, false, 0⟩ 0 (some 0)]).2.mCache =
      [⟨5126, 3, 12, false, 0, 0⟩, ⟨5126, 2, 8, false, 0, 4294967295⟩] ∧
    VertexElement.sameLayout ⟨5126, 2, 8, false, 0, 4294967295⟩ ⟨5126, 2, 8, false, 0⟩ ∧
    StaticVertexBufferInterface.lookupAttribute 32
      (StaticOp.run 32 (1, (StaticVertexBufferInterface.construct 1).self)
        [StaticOp.addRequiredSpace 4294967295, StaticOp.reserveRequiredSpace (some 0),
          StaticOp.map ⟨5126, 3, 12, false, 0⟩ 4294967295 (some 0),
          StaticOp.map ⟨5126, 2, 8, false, 0⟩ 0 (some 0)]).2
      ⟨5126, 2, 8, false, 0⟩ = NOT_FOUND 32 := by
  decide

/-- Claim C5, amended: `lookupAttribute` returns the `streamOffset` of the first entry,
in insertion order, that has the layout of the query, and the sentinel when no entry
has it, in particular on an empty cache; when no cached `streamOffset` is the sentinel
value itself, the result is the sentinel if and only if no entry has the layout of the
query. -/
theorem lookupAttribute_first_match (w : Nat) (s : StaticVertexBufferInterface)
    (attrib : VertexAttribute) :
    (∀ pre e post, s.mCache = pre ++ e :: post → (∀ x ∈ pre, ¬ x.sameLayout attrib) →
      e.sameLayout attrib → s.lookupAttribute w attrib = e.streamOffset) ∧
    ((∀ x ∈ s.mCache, ¬ x.sameLayout attrib) → s.lookupAttribute w attrib = NOT_FOUND w) ∧
    (s.mCache = [] → s.lookupAttribute w attrib = NOT_FOUND w) ∧
    ((∀ x ∈ s.mCache, x.streamOffset ≠ NOT_FOUND w) →
      (s.lookupAttribute w attrib = NOT_FOUND w ↔ ∀ x ∈ s.mCache, ¬ x.sameLayout attrib)) := by
  refine ⟨?_, ?_, ?_, ?_⟩
  · intro pre e post hsplit hpre he
    unfold StaticVertexBufferInterface.lookupAttribute
    rw [hsplit]
    exact lookupFrom_first w attrib pre post e hpre he
  · intro hnone
    exact lookupFrom_none w attrib s.mCache hnone
  · intro hnil
    unfold StaticVertexBufferInterface.lookupAttribute
    rw [hnil]
    rfl
  · intro hoff
    constructor
    · intro hres
      rcases first_sameLayout_split attrib s.mCache with h | ⟨pre, e, post, hsplit, hpre, he⟩
      · exact h
      · exfalso
        unfold StaticVertexBufferInterface.lookupAttribute at hres
        rw [hsplit, lookupFrom_first w attrib pre post e hpre he] at hres
        exact hoff e (by rw [hsplit]; simp) hres
    · intro hnone
      exact lookupFrom_none w attrib s.mCache hnone

/-- An instance of claim C5: with two entries of the same layout, the first one
answers, and the result is not the sentinel. -/
theorem lookupAttribute_first_match_witness :
    StaticVertexBufferInterface.lookupAttribute 32
        ⟨⟨some 0, some 1, 48, 48, 0⟩,
          [⟨5126, 2, 8, false, 0, 0⟩, ⟨5126, 3, 12, false, 0, 16⟩,
            ⟨5126, 3, 12, false, 0, 32⟩]⟩
        ⟨5126, 3, 12, false, 120⟩ = 16 ∧
      ¬ StaticVertexBufferInterface.lookupAttribute 32
        ⟨⟨some 0, some 1, 48, 48, 0⟩,
          [⟨5126, 2, 8, false, 0, 0⟩, ⟨5126, 3, 12, false, 0, 16⟩,
            ⟨5126, 3, 12, false, 0, 32⟩]⟩
        ⟨5126, 3, 12, false, 120⟩ = NOT_FOUND 32 :=
  have h := lookupAttribute_first_match 32
    ⟨⟨some 0, some 1, 48, 48, 0⟩,
      [⟨5126, 2, 8, false, 0, 0⟩, ⟨5126, 3, 12, false, 0, 16⟩,
        ⟨5126, 3, 12, false, 0, 32⟩]⟩
    ⟨5126, 3, 12, false, 120⟩
  ⟨h.1 [⟨5126, 2, 8, false, 0, 0⟩] ⟨5126, 3, 12, false, 0, 16⟩ [⟨5126, 3, 12, false, 0, 32⟩]
      rfl (by decide) (by decide),
    fun hres => absurd ((h.2.2.2 (by decide)).mp hres) (by decide)⟩

/-! ## Static `map` followed by `lookupAttribute` -/

/-- A `map` that returns a pointer found the resource present and the lock
successful. -/
theorem static_map_success (w : Nat) (s : StaticVertexBufferInterface)
    (attrib : VertexAttribute) (requiredSpace : Nat) (lockResult : Option Nat) (mapPtr : Nat)
    (hmap : (s.map w attrib requiredSpace lockResult).mapPtr = some mapPtr) :
    (s.map w attrib requiredSpace lockResult).self.mCache =
        s.mCache ++ [StaticVertexBufferInterface.element attrib s.mWritePosition] ∧
      (s.map w attrib requiredSpace lockResult).offset = some s.mWritePosition := by
  unfold StaticVertexBufferInterface.map at hmap ⊢
  cases hb : s.mVertexBuffer with
  | none => simp [hb] at hmap
  | some b =>
    cases lockResult with
    | none => simp [hb] at hmap
    | some p =>
      by_cases hz : attrib.stride = 0
      · simp [hb, hz] at hmap
      · simp [hz]

/-- Claim C6 fails as stated. With a 32-bit `size_t`, a static interface allocated
with 4294967295 bytes and filled by a first `map` of 4294967295 bytes: a second `map`,
for an attribute of another layout and 0 bytes, succeeds and returns offset
4294967295, no earlier entry has that layout, and `lookupAttribute` of the same
attribute returns 4294967295, which is the sentinel `(size_t)-1`. -/
theorem static_map_then_lookup_counterexample :
    (StaticVertexBufferInterface.map 32
      (StaticOp.run 32 (1, (StaticVertexBufferInterface.construct 1).self)
        [StaticOp.addRequiredSpace 4294967295, StaticOp.reserveRequiredSpace (some 0),
          StaticOp.map ⟨5126, 3, 12, false, 0⟩ 4294967295 (some 0)]).2
      ⟨5126, 2, 8, false, 4⟩ 0 (some 0)).mapPtr = some 0 ∧
    (StaticVertexBufferInterface.map 32
      (StaticOp.run 32 (1, (StaticVertexBufferInterface.construct 1).self)
        [StaticOp.addRequiredSpace 4294967295, StaticOp.reserveRequiredSpace (some 0),
          StaticOp.map ⟨5126, 3, 12, false, 0⟩ 4294967295 (some 0)]).2
      ⟨5126, 2, 8, false, 4⟩ 0 (some 0)).offset = some 4294967295 ∧
    (∀ x ∈ (StaticOp.run 32 (1, (StaticVertexBufferInterface.construct 1).self)
        [StaticOp.addRequiredSpace 4294967295, StaticOp.reserveRequiredSpace (some 0),
          StaticOp.map ⟨5126, 3, 12, false, 0⟩ 4294967295 (some 0)]).2.mCache,
      ¬ x.sameLayout ⟨5126, 2, 8, false, 4⟩) ∧
    StaticVertexBufferInterface.lookupAttribute 32
      (StaticVertexBufferInterface.map 32
        (StaticOp.run 32 (1, (StaticVertexBufferInterface.construct 1).self)
          [StaticOp.addRequiredSpace 4294967295, StaticOp.reserveRequiredSpace (some 0),
            StaticOp.map ⟨5126, 3, 12, false, 0⟩ 4294967295 (some 0)]).2
        ⟨5126, 2, 8, false, 4⟩ 0 (some 0)).self
      ⟨5126, 2, 8, false, 4⟩ = NOT_FOUND 32 := by
  decide

/-- Claim C6, amended: if `map` of an attribute succeeds and stores offset `o`, then for
every attribute with the same type, component count, stride and normalized flag and
the same offset modulo the stride, `lookupAttribute` returns `o` whenever no earlier
cache entry has that layout, and returns the `streamOffset` of the first earlier entry
that has it otherwise; the result is not the sentinel provided neither `o` nor a
cached `streamOffset` is the sentinel value itself. -/
theorem static_map_then_lookup (w : Nat) (s : StaticVertexBufferInterface)
    (a b : VertexAttribute) (requiredSpace : Nat) (lockResult : Option Nat) (mapPtr o : Nat)
    (hmap : (s.map w a requiredSpace lockResult).mapPtr = some mapPtr)
    (ho : (s.map w a requiredSpace lockResult).offset = some o)
    (hsame : b.mType = a.mType ∧ b.mSize = a.mSize ∧ b.stride = a.stride ∧
      b.mNormalized = a.mNormalized ∧ Int.tmod b.mOffset b.stride = Int.tmod a.mOffset a.stride) :
    ((∀ x ∈ s.mCache, ¬ x.sameLayout b) →
      (s.map w a requiredSpace lockResult).self.lookupAttribute w b = o) ∧
    (∀ pre e post, s.mCache = pre ++ e :: post → (∀ x ∈ pre, ¬ x.sameLayout b) →
      e.sameLayout b →
      (s.map w a requiredSpace lockResult).self.lookupAttribute w b = e.streamOffset) ∧
    ((∀ x ∈ s.mCache, x.streamOffset ≠ NOT_FOUND w) → o ≠ NOT_FOUND w →
      (s.map w a requiredSpace lockResult).self.lookupAttribute w b ≠ NOT_FOUND w) := by
  obtain ⟨hcache, hoff⟩ := static_map_success w s a requiredSpace lockResult mapPtr hmap
  have hwp : s.mWritePosition = o := by
    rw [hoff] at ho
    exact Option.some.inj ho
  have hnew : (StaticVertexBufferInterface.element a s.mWritePosition).sameLayout b := by
    obtain ⟨h1, h2, h3, h4, h5⟩ := hsame
    exact ⟨h1.symm, h2.symm, h3.symm, h4.symm, h5.symm⟩
  have hfresh : (∀ x ∈ s.mCache, ¬ x.sameLayout b) →
      (s.map w a requiredSpace lockResult).self.lookupAttribute w b = o := by
    intro hnone
    unfold StaticVertexBufferInterface.lookupAttribute
    rw [hcache, lookupFrom_first w b s.mCache [] _ hnone hnew, ← hwp]
    rfl
  have hearlier : ∀ pre e post, s.mCache = pre ++ e :: post →
      (∀ x ∈ pre, ¬ x.sameLayout b) → e.sameLayout b →
      (s.map w a requiredSpace lockResult).self.lookupAttribute w b = e.streamOffset := by
    intro pre e post hsplit hpre he
    unfold StaticVertexBufferInterface.lookupAttribute
    rw [hcache, hsplit, List.append_assoc, List.cons_append]
    exact lookupFrom_first w b pre _ e hpre he
  refine ⟨hfresh, hearlier, ?_⟩
  intro hoffs hone
  rcases first_sameLayout_split b s.mCache with h | ⟨pre, e, post, hsplit, hpre, he⟩
  · rw [hfresh h]
    exact hone
  · rw [hearlier pre e post hsplit hpre he]
    exact hoffs e (by rw [hsplit]; simp)

/-- The scenario of claim C6: an attribute of stride 12 and offset 0 mapped at offset 0
of a newly allocated static buffer of 48 bytes is found at 0 by a lookup with offset
120. -/
theorem static_map_then_lookup_witness :
    StaticVertexBufferInterface.lookupAttribute 32
      (StaticVertexBufferInterface.map 32
        (StaticOp.run 32 (1, (StaticVertexBufferInterface.construct 1).self)
          [StaticOp.addRequiredSpace 48, StaticOp.reserveRequiredSpace (some 0)]).2
        ⟨5126, 3, 12, false, 0⟩ 48 (some 0)).self
      ⟨5126, 3, 12, false, 120⟩ = 0 :=
  (static_map_then_lookup 32
    (StaticOp.run 32 (1, (StaticVertexBufferInterface.construct 1).self)
      [StaticOp.addRequiredSpace 48, StaticOp.reserveRequiredSpace (some 0)]).2
    ⟨5126, 3, 12, false, 0⟩ ⟨5126, 3, 12, false, 120⟩ 48 (some 0) 0 0
    (by decide) (by decide) (by decide)).1 (by decide)

/-! ## Static `reserveRequiredSpace` -/

/-- No call on a static interface whose resource is present changes the resource or
the capacity. -/
theorem static_apply_keeps_buffer (w : Nat) (st : Nat × StaticVertexBufferInterface)
    (op : StaticOp) (buffer : Nat) (hpresent : st.2.mVertexBuffer = some buffer) :
    (StaticOp.apply w st op).2.mVertexBuffer = some buffer ∧
      (StaticOp.apply w st op).2.mBufferSize = st.2.mBufferSize := by
  cases op with
  | addRequiredSpace n =>
    exact ⟨hpresent, rfl⟩
  | reserveRequiredSpace createResult =>
    have hfirst : ¬ (st.2.mVertexBuffer = none ∧ st.2.mBufferSize = 0) := by
      rw [hpresent]; simp
    simp only [StaticOp.apply, StaticVertexBufferInterface.reserveRequiredSpace, if_neg hfirst]
    split_ifs <;> exact ⟨hpresent, rfl⟩
  | map attrib n lockResult =>
    by_cases hz : attrib.stride = 0 <;> cases lockResult <;>
      simp [StaticOp.apply, StaticVertexBufferInterface.map, hpresent, hz]
  | unmap => exact ⟨hpresent, rfl⟩
  | lookupAttribute attrib => exact ⟨hpresent, rfl⟩

/-- No sequence of calls on a static interface whose resource is present changes the
resource or the capacity. -/
theorem static_run_keeps_buffer (w : Nat) (ops : List StaticOp)
    (st : Nat × StaticVertexBufferInterface) (buffer : Nat)
    (hpresent : st.2.mVertexBuffer = some buffer) :
    (StaticOp.run w st ops).2.mVertexBuffer = some buffer ∧
      (StaticOp.run w st ops).2.mBufferSize = st.2.mBufferSize := by
  induction ops generalizing st with
  | nil => exact ⟨hpresent, rfl⟩
  | cons op rest ih =>
    obtain ⟨h1, h2⟩ := static_apply_keeps_buffer w st op buffer hpresent
    obtain ⟨h3, h4⟩ := ih (StaticOp.apply w st op) h1
    exact ⟨h3, h4.trans h2⟩

/-- Claim C7: on a static interface with no resource and capacity 0, a pass whose
`createVertexBuffer` succeeds sets the capacity to the pending request `N`, stores the
resource and draws a new serial from the counter. After any further calls, a pass with
a pending request of at most `N` only resets the pending request (capacity, write
position, serial, resource and cache unchanged, counter unchanged, no backend call), and
a pass with a pending request above `N` executes `UNREACHABLE()`. -/
theorem static_reserve_first_then_fixed (w mCurrentSerial : Nat)
    (s : StaticVertexBufferInterface) (buffer : Nat)
    (hfresh : s.mVertexBuffer = none ∧ s.mBufferSize = 0) :
    (s.reserveRequiredSpace mCurrentSerial (some buffer)).self.mBufferSize =
        s.mRequiredSpace ∧
      (s.reserveRequiredSpace mCurrentSerial (some buffer)).self.mVertexBuffer =
        some buffer ∧
      (s.reserveRequiredSpace mCurrentSerial (some buffer)).self.mSerial =
        some mCurrentSerial ∧
      (s.reserveRequiredSpace mCurrentSerial (some buffer)).mCurrentSerial =
        (mCurrentSerial + 1) % UINT_RANGE ∧
      (s.reserveRequiredSpace mCurrentSerial (some buffer)).unreachable = false ∧
      ∀ (ops : List StaticOp) (createResult : Option Nat)
        (st : Nat × StaticVertexBufferInterface),
        st = StaticOp.run w
          ((s.reserveRequiredSpace mCurrentSerial (some buffer)).mCurrentSerial,
            (s.reserveRequiredSpace mCurrentSerial (some buffer)).self) ops →
        (st.2.mRequiredSpace ≤ s.mRequiredSpace →
          st.2.reserveRequiredSpace st.1 createResult =
            { self := { st.2 with mRequiredSpace := 0 }
              mCurrentSerial := st.1
              calls := []
              unreachable := false }) ∧
        (st.2.mRequiredSpace > s.mRequiredSpace →
          (st.2.reserveRequiredSpace st.1 createResult).unreachable = true) := by
  have hfirst : (s.reserveRequiredSpace mCurrentSerial (some buffer)).self.mBufferSize =
        s.mRequiredSpace ∧
      (s.reserveRequiredSpace mCurrentSerial (some buffer)).self.mVertexBuffer =
        some buffer := by
    simp only [StaticVertexBufferInterface.reserveRequiredSpace, if_pos hfresh]
    exact ⟨trivial, trivial⟩
  refine ⟨hfirst.1, hfirst.2, ?_, ?_, ?_, ?_⟩
  · simp only [StaticVertexBufferInterface.reserveRequiredSpace, if_pos hfresh]
    rfl
  · simp only [StaticVertexBufferInterface.reserveRequiredSpace, if_pos hfresh]
    rfl
  · simp only [StaticVertexBufferInterface.reserveRequiredSpace, if_pos hfresh]
  · intro ops createResult st hst
    obtain ⟨hbuf, hsize⟩ := static_run_keeps_buffer w ops
      ((s.reserveRequiredSpace mCurrentSerial (some buffer)).mCurrentSerial,
        (s.reserveRequiredSpace mCurrentSerial (some buffer)).self) buffer hfirst.2
    rw [← hst] at hbuf hsize
    have hcap : st.2.mBufferSize = s.mRequiredSpace := hsize.trans hfirst.1
    have hnot : ¬ (st.2.mVertexBuffer = none ∧ st.2.mBufferSize = 0) := by
      rw [hbuf]; simp
    have hsome : st.2.mVertexBuffer ≠ none := by
      rw [hbuf]; simp
    constructor
    · intro hle
      have hsecond : st.2.mVertexBuffer ≠ none ∧ st.2.mBufferSize ≥ st.2.mRequiredSpace :=
        ⟨hsome, by rw [hcap]; exact hle⟩
      simp only [StaticVertexBufferInterface.reserveRequiredSpace, if_neg hnot, if_pos hsecond]
    · intro hgt
      have hsecond : ¬ (st.2.mVertexBuffer ≠ none ∧ st.2.mBufferSize ≥ st.2.mRequiredSpace) := by
        rw [hcap]
        intro h
        exact absurd h.2 (Nat.not_le.mpr hgt)
      simp only [StaticVertexBufferInterface.reserveRequiredSpace, if_neg hnot, if_neg hsecond]

/-- An instance of claim C7: a first pass with 48 bytes pending; after a `map` of 24
bytes, a pass with 24 pending is a no-op and a pass with 49 pending executes
`UNREACHABLE()`. -/
theorem static_reserve_first_then_fixed_witness :
    ((StaticVertexBufferInterface.construct 1).self.addRequiredSpace 32
        48).reserveRequiredSpace 1 (some 0) =
      { self := ⟨⟨some 0, some 1, 48, 0, 0⟩, []⟩
        mCurrentSerial := 2
        calls := [BackendCall.createVertexBuffer 48 Usage.D3DUSAGE_WRITEONLY]
        unreachable := false } ∧
    (StaticVertexBufferInterface.reserveRequiredSpace 2
      ⟨⟨some 0, some 1, 48, 24, 24⟩, [⟨5126, 3, 12, false, 0, 0⟩]⟩ none).self =
      ⟨⟨some 0, some 1, 48, 24, 0⟩, [⟨5126, 3, 12, false, 0, 0⟩]⟩ ∧
    (StaticVertexBufferInterface.reserveRequiredSpace 2
      ⟨⟨some 0, some 1, 48, 24, 49⟩, [⟨5126, 3, 12, false, 0, 0⟩]⟩ none).unreachable = true :=
  have h := static_reserve_first_then_fixed 32 1
    ((StaticVertexBufferInterface.construct 1).self.addRequiredSpace 32 48) 0 (by decide)
  ⟨by decide,
    congrArg Pass.self ((h.2.2.2.2.2
      [StaticOp.map ⟨5126, 3, 12, false, 0⟩ 24 (some 7), StaticOp.unmap,
        StaticOp.addRequiredSpace 24] none
      (2, ⟨⟨some 0, some 1, 48, 24, 24⟩, [⟨5126, 3, 12, false, 0, 0⟩]⟩) (by decide)).1
      (by decide)),
    (h.2.2.2.2.2
      [StaticOp.map ⟨5126, 3, 12, false, 0⟩ 24 (some 7), StaticOp.unmap,
        StaticOp.addRequiredSpace 49] none
      (2, ⟨⟨some 0, some 1, 48, 24, 49⟩, [⟨5126, 3, 12, false, 0, 0⟩]⟩) (by decide)).2
      (by decide)⟩

/-! ## Serials of constructed instances -/

/-- A construction that draws a serial is assigned the counter's value and advances the
counter; one that does not is assigned nothing and leaves the counter. -/
theorem build_eq (mCurrentSerial : Nat) (k : Construction) :
    (k.drawsSerial = true →
      k.build mCurrentSerial = (some mCurrentSerial, (mCurrentSerial + 1) % UINT_RANGE)) ∧
    (k.drawsSerial = false → k.build mCurrentSerial = (none, mCurrentSerial)) := by
  cases k with
  | static =>
    exact ⟨fun h => by simp [Construction.drawsSerial] at h, fun _ => rfl⟩
  | streaming initialSize createResult =>
    constructor
    · intro h
      have hpos : initialSize > 0 := by simpa [Construction.drawsSerial] using h
      simp [Construction.build, StreamingVertexBufferInterface.construct,
        VertexBufferInterface.construct, VertexBufferInterface.getSerial,
        VertexBufferInterface.issueSerial, hpos]
    · intro h
      have hz : initialSize = 0 := by simpa [Construction.drawsSerial] using h
      subst hz
      simp [Construction.build, StreamingVertexBufferInterface.construct,
        VertexBufferInterface.construct, VertexBufferInterface.getSerial]

/-- While the counter does not wrap, every serial assigned by a sequence of
constructions is at least the counter's value before the sequence, and a sequence that
assigns a serial holds a construction that draws one. -/
theorem serials_lower (ks : List Construction) :
    ∀ c : Nat, c + (ks.filter Construction.drawsSerial).length ≤ UINT_RANGE →
      ∀ v : Nat, some v ∈ Construction.serials c ks →
        c ≤ v ∧ 1 ≤ (ks.filter Construction.drawsSerial).length := by
  have hR : 0 < UINT_RANGE := by decide
  induction ks with
  | nil => intro c _ v hv; simp [Construction.serials] at hv
  | cons k ks ih =>
    intro c hc v hv
    by_cases hd : k.drawsSerial = true
    · have hb := (build_eq c k).1 hd
      rw [List.filter_cons_of_pos hd, List.length_cons] at hc ⊢
      simp only [Construction.serials, hb, List.mem_cons] at hv
      refine ⟨?_, by omega⟩
      rcases hv with hv | hv
      · exact Nat.le_of_eq (Option.some.inj hv).symm
      · by_cases hlt : c + 1 < UINT_RANGE
        · rw [Nat.mod_eq_of_lt hlt] at hv
          have := (ih (c + 1) (by omega) v hv).1
          omega
        · have hmod : (c + 1) % UINT_RANGE < UINT_RANGE := Nat.mod_lt _ hR
          have := (ih ((c + 1) % UINT_RANGE) (by omega) v hv).2
          omega
    · have hdf : k.drawsSerial = false := by simpa using hd
      have hb := (build_eq c k).2 hdf
      rw [List.filter_cons_of_neg hd] at hc ⊢
      simp only [Construction.serials, hb, List.mem_cons] at hv
      rcases hv with hv | hv
      · cases hv
      · exact ih c hc v hv

/-- Claim C8 fails as stated, at three sequences of constructions. Two static
interfaces constructed in a row are assigned no serial at all, and neither is a
streaming interface of initial size 0: the constructor issues a serial only when
`size > 0`. And two streaming interfaces constructed when the counter is 4294967295
receive 4294967295 and then 0. -/
theorem construction_serials_counterexample :
    Construction.serials 1 [Construction.static, Construction.static] = [none, none] ∧
    ¬ List.Pairwise SerialBefore
      (Construction.serials 1 [Construction.static, Construction.static]) ∧
    Construction.serials 1
      [Construction.streaming 64 (some 0), Construction.streaming 0 none,
        Construction.streaming 64 (some 1)] = [some 1, none, some 2] ∧
    ¬ List.Pairwise SerialBefore
      (Construction.serials 1
        [Construction.streaming 64 (some 0), Construction.streaming 0 none,
          Construction.streaming 64 (some 1)]) ∧
    Construction.serials 4294967295
      [Construction.streaming 64 (some 0), Construction.streaming 64 (some 1)] =
      [some 4294967295, some 0] ∧
    ¬ List.Pairwise SerialBefore
      (Construction.serials 4294967295
        [Construction.streaming 64 (some 0), Construction.streaming 64 (some 1)]) := by
  decide

/-- Claim C8, amended: a construction is assigned a serial exactly when it is a
streaming construction with an initial size above 0; it is then assigned the counter's
value and the counter advances by one modulo the range of `unsigned int`. A static
construction, and a streaming one of size 0, leave `mSerial` unassigned and leave the
counter as it was. Over every sequence of constructions sharing the counter in which the
constructions that draw a serial do not take the counter past the range of
`unsigned int`, the serials that are assigned are strictly increasing in construction
order, hence pairwise distinct, and the counter ends at its initial value plus the
number of drawing constructions, modulo that range. -/
theorem construction_serials_increasing (mCurrentSerial : Nat) (ks : List Construction)
    (hwrap : mCurrentSerial + (ks.filter Construction.drawsSerial).length ≤ UINT_RANGE) :
    List.Pairwise (fun x y => x < y)
        ((Construction.serials mCurrentSerial ks).filterMap id) ∧
      (mCurrentSerial < UINT_RANGE →
        Construction.counterAfter mCurrentSerial ks =
          (mCurrentSerial + (ks.filter Construction.drawsSerial).length) % UINT_RANGE) ∧
      ∀ (c : Nat) (k : Construction),
        (k.drawsSerial = false ↔
          k = Construction.static ∨ ∃ createResult, k = Construction.streaming 0 createResult) ∧
        (k.drawsSerial = false → (k.build c).1 = none ∧ (k.build c).2 = c) ∧
        (k.drawsSerial = true →
          (k.build c).1 = some c ∧ (k.build c).2 = (c + 1) % UINT_RANGE) ∧
        ((k.build c).1 = none ↔
          k = Construction.static ∨ ∃ createResult, k = Construction.streaming 0 createResult) ∧
        ((k.build c).1 ≠ none → (k.build c).1 = some c) := by
  have hR : 0 < UINT_RANGE := by decide
  have hclass : ∀ k : Construction, (k.drawsSerial = false ↔
      k = Construction.static ∨
        ∃ createResult, k = Construction.streaming 0 createResult) := by
    intro k
    cases k with
    | static => simp [Construction.drawsSerial]
    | streaming initialSize createResult => simp [Construction.drawsSerial]
  refine ⟨?_, ?_, ?_⟩
  · induction ks generalizing mCurrentSerial with
    | nil => simp [Construction.serials]
    | cons k ks ih =>
      by_cases hd : k.drawsSerial = true
      · have hb := (build_eq mCurrentSerial k).1 hd
        rw [List.filter_cons_of_pos hd, List.length_cons] at hwrap
        have hhead : List.filterMap id
            (Construction.serials mCurrentSerial (k :: ks)) =
            mCurrentSerial ::
              List.filterMap id
                (Construction.serials ((mCurrentSerial + 1) % UINT_RANGE) ks) := by
          simp [Construction.serials, hb]
        rw [hhead, List.pairwise_cons]
        have hmod : (mCurrentSerial + 1) % UINT_RANGE < UINT_RANGE := Nat.mod_lt _ hR
        have hnext : (mCurrentSerial + 1) % UINT_RANGE +
            (ks.filter Construction.drawsSerial).length ≤ UINT_RANGE := by
          by_cases hlt : mCurrentSerial + 1 < UINT_RANGE
          · rw [Nat.mod_eq_of_lt hlt]
            omega
          · omega
        constructor
        · intro v hv
          rw [List.mem_filterMap] at hv
          obtain ⟨a, ha, hav⟩ := hv
          simp only [id] at hav
          rw [hav] at ha
          obtain ⟨hge, hcount⟩ := serials_lower ks _ hnext v ha
          have hlt : mCurrentSerial + 1 < UINT_RANGE := by omega
          rw [Nat.mod_eq_of_lt hlt] at hge
          omega
        · exact ih _ hnext
      · have hdf : k.drawsSerial = false := by simpa using hd
        have hb := (build_eq mCurrentSerial k).2 hdf
        rw [List.filter_cons_of_neg hd] at hwrap
        simp only [Construction.serials, hb, List.filterMap_cons_none, id]
        exact ih mCurrentSerial hwrap
  · clear hwrap
    induction ks generalizing mCurrentSerial with
    | nil =>
      intro hlt
      simp [Construction.counterAfter, Nat.mod_eq_of_lt hlt]
    | cons k ks ih =>
      intro hlt
      by_cases hd : k.drawsSerial = true
      · have hb := (build_eq mCurrentSerial k).1 hd
        rw [List.filter_cons_of_pos hd, List.length_cons]
        simp only [Construction.counterAfter, hb]
        rw [ih _ (Nat.mod_lt _ hR), Nat.mod_add_mod]
        congr 1
        omega
      · have hdf : k.drawsSerial = false := by simpa using hd
        have hb := (build_eq mCurrentSerial k).2 hdf
        rw [List.filter_cons_of_neg hd]
        simp only [Construction.counterAfter, hb]
        exact ih _ hlt
  · intro c k
    refine ⟨hclass k, ?_, ?_, ?_, ?_⟩
    · intro h
      rw [(build_eq c k).2 h]
      exact ⟨rfl, rfl⟩
    · intro h
      rw [(build_eq c k).1 h]
      exact ⟨rfl, rfl⟩
    · rw [← hclass k]
      by_cases hd : k.drawsSerial = true
      · rw [(build_eq c k).1 hd, hd]
        simp
      · have hdf : k.drawsSerial = false := by simpa using hd
        rw [(build_eq c k).2 hdf, hdf]
        simp
    · intro hne
      by_cases hd : k.drawsSerial = true
      · rw [(build_eq c k).1 hd]
      · have hdf : k.drawsSerial = false := by simpa using hd
        rw [(build_eq c k).2 hdf] at hne
        exact absurd rfl hne

/-- An instance of claim C8: from counter 4294967294, two static constructions, a
streaming one of size 0 and two streaming ones of sizes 1048576 and 64: the two that
draw are assigned 4294967294 and 4294967295, the others nothing, and the counter ends
at 0. -/
theorem construction_serials_increasing_witness :
    List.Pairwise (fun x y => x < y)
      ((Construction.serials 4294967294
        [Construction.static, Construction.streaming 1048576 (some 0), Construction.static,
          Construction.streaming 0 none, Construction.streaming 64 none]).filterMap id) ∧
    Construction.serials 4294967294
        [Construction.static, Construction.streaming 1048576 (some 0), Construction.static,
          Construction.streaming 0 none, Construction.streaming 64 none] =
      [none, some 4294967294, none, none, some 4294967295] ∧
    Construction.counterAfter 4294967294
        [Construction.static, Construction.streaming 1048576 (some 0), Construction.static,
          Construction.streaming 0 none, Construction.streaming 64 none] = 0 :=
  have h := construction_serials_increasing 4294967294
    [Construction.static, Construction.streaming 1048576 (some 0), Construction.static,
      Construction.streaming 0 none, Construction.streaming 64 none] (by decide)
  ⟨h.1, by decide, (h.2.1 (by decide)).trans (by decide)⟩

/-! ## Streaming `map` -/

/-- While the write position does not overflow, the ranges handed out by consecutive
`map` calls start at or after the write position and each ends where a later one
starts or before. -/
theorem mapAll_ordered (w : Nat) (reqs : List (Nat × Option Nat)) :
    ∀ s : StreamingVertexBufferInterface,
      s.mWritePosition + ((s.mapAll w reqs).map Prod.snd).sum < SIZE_RANGE w →
      (∀ r ∈ s.mapAll w reqs, s.mWritePosition ≤ r.1) ∧
        List.Pairwise (fun r1 r2 : Nat × Nat => r1.1 + r1.2 ≤ r2.1) (s.mapAll w reqs) := by
  induction reqs with
  | nil =>
    intro s _
    simp [StreamingVertexBufferInterface.mapAll]
  | cons req rest ih =>
    intro s hfit
    cases hb : s.mVertexBuffer with
    | none =>
      have hstep : s.mapAll w (req :: rest) = s.mapAll w rest := by
        simp [StreamingVertexBufferInterface.mapAll, StreamingVertexBufferInterface.map, hb]
      rw [hstep] at hfit ⊢
      exact ih s hfit
    | some buffer =>
      cases hl : req.2 with
      | none =>
        have hstep : s.mapAll w (req :: rest) = s.mapAll w rest := by
          simp [StreamingVertexBufferInterface.mapAll, StreamingVertexBufferInterface.map, hb, hl]
        rw [hstep] at hfit ⊢
        exact ih s hfit
      | some mapPtr =>
        have hstep : s.mapAll w (req :: rest) =
            (s.mWritePosition, req.1) ::
              StreamingVertexBufferInterface.mapAll w
                { s with mWritePosition := (s.mWritePosition + req.1) % SIZE_RANGE w } rest := by
          simp [StreamingVertexBufferInterface.mapAll, StreamingVertexBufferInterface.map, hb, hl]
        rw [hstep] at hfit ⊢
        simp only [List.map_cons, List.sum_cons] at hfit
        have hlt : s.mWritePosition + req.1 < SIZE_RANGE w := by omega
        rw [Nat.mod_eq_of_lt hlt] at hfit ⊢
        obtain ⟨hlow, hpair⟩ :=
          ih { s with mWritePosition := s.mWritePosition + req.1 } (by
            show s.mWritePosition + req.1 + _ < SIZE_RANGE w
            omega)
        have hlow2 : ∀ r ∈ StreamingVertexBufferInterface.mapAll w
            { s with mWritePosition := s.mWritePosition + req.1 } rest,
            s.mWritePosition + req.1 ≤ r.1 := hlow
        constructor
        · intro r hr
          rcases List.mem_cons.mp hr with rfl | hr
          · exact Nat.le_refl _
          · exact Nat.le_trans (Nat.le_add_right _ _) (hlow2 r hr)
        · rw [List.pairwise_cons]
          exact ⟨fun r hr => hlow2 r hr, hpair⟩

/-- Over a sequence of calls without a reservation pass, while the write position does
not overflow, the ranges handed out by the `map` calls start at or after the write
position and each ends where a later one starts or before. -/
theorem ranges_ordered (w : Nat) (ops : List StreamingOp) :
    ∀ st : Nat × StreamingVertexBufferInterface,
      (∀ op ∈ ops, op.isPass = false) →
      st.2.mWritePosition + ((StreamingOp.ranges w st ops).map Prod.snd).sum < SIZE_RANGE w →
      (∀ r ∈ StreamingOp.ranges w st ops, st.2.mWritePosition ≤ r.1) ∧
        List.Pairwise (fun r1 r2 : Nat × Nat => r1.1 + r1.2 ≤ r2.1)
          (StreamingOp.ranges w st ops) := by
  induction ops with
  | nil =>
    intro st _ _
    simp [StreamingOp.ranges]
  | cons op rest ih =>
    intro st hops hfit
    have hrest : ∀ op2 ∈ rest, op2.isPass = false :=
      fun op2 h2 => hops op2 (List.mem_cons_of_mem op h2)
    cases op with
    | addRequiredSpace n =>
      have hstep : StreamingOp.ranges w st (StreamingOp.addRequiredSpace n :: rest) =
          StreamingOp.ranges w (StreamingOp.apply w st (StreamingOp.addRequiredSpace n))
            rest := rfl
      rw [hstep] at hfit ⊢
      exact ih _ hrest hfit
    | unmap =>
      have hstep : StreamingOp.ranges w st (StreamingOp.unmap :: rest) =
          StreamingOp.ranges w (StreamingOp.apply w st StreamingOp.unmap) rest := rfl
      rw [hstep] at hfit ⊢
      exact ih _ hrest hfit
    | reserveRequiredSpace createResult =>
      have := hops (StreamingOp.reserveRequiredSpace createResult) (List.mem_cons_self _ _)
      simp [StreamingOp.isPass] at this
    | map n lockResult =>
      cases hb : st.2.mVertexBuffer with
      | none =>
        have hstep : StreamingOp.ranges w st (StreamingOp.map n lockResult :: rest) =
            StreamingOp.ranges w st rest := by
          simp [StreamingOp.ranges, StreamingOp.apply, StreamingVertexBufferInterface.map, hb]
        rw [hstep] at hfit ⊢
        exact ih st hrest hfit
      | some buffer =>
        cases lockResult with
        | none =>
          have hstep : StreamingOp.ranges w st (StreamingOp.map n none :: rest) =
              StreamingOp.ranges w st rest := by
            simp [StreamingOp.ranges, StreamingOp.apply, StreamingVertexBufferInterface.map,
              hb]
          rw [hstep] at hfit ⊢
          exact ih st hrest hfit
        | some mapPtr =>
          have hstep : StreamingOp.ranges w st (StreamingOp.map n (some mapPtr) :: rest) =
              (st.2.mWritePosition, n) ::
                StreamingOp.ranges w
                  (st.1, { st.2 with
                    mWritePosition := (st.2.mWritePosition + n) % SIZE_RANGE w }) rest := by
            simp [StreamingOp.ranges, StreamingOp.apply, StreamingVertexBufferInterface.map,
              hb]
          rw [hstep] at hfit ⊢
          simp only [List.map_cons, List.sum_cons] at hfit
          have hlt : st.2.mWritePosition + n < SIZE_RANGE w := by omega
          rw [Nat.mod_eq_of_lt hlt] at hfit ⊢
          obtain ⟨hlow, hpair⟩ :=
            ih (st.1, { st.2 with mWritePosition := st.2.mWritePosition + n }) hrest (by
              show st.2.mWritePosition + n + _ < SIZE_RANGE w
              rw [Nat.add_assoc]
              exact hfit)
          have hlow2 : ∀ r ∈ StreamingOp.ranges w
              (st.1, { st.2 with mWritePosition := st.2.mWritePosition + n }) rest,
              st.2.mWritePosition + n ≤ r.1 := hlow
          constructor
          · intro r hr
            rcases List.mem_cons.mp hr with rfl | hr
            · exact Nat.le_refl _
            · exact Nat.le_trans (Nat.le_add_right _ _) (hlow2 r hr)
          · rw [List.pairwise_cons]
            exact ⟨fun r hr => hlow2 r hr, hpair⟩

/-- Claim C9 fails as stated. With a 32-bit `size_t`, a streaming interface of
4294967295 bytes whose write position has reached 4294967295: a successful `map` of 1
byte returns offset 4294967295 and leaves the write position at 0, not at
`4294967295 + 1`; the next `map`, of 16 bytes, returns offset 0, and byte 0 lies both
in its range and in the range of the first `map`. -/
theorem streaming_map_counterexample :
    ((StreamingVertexBufferInterface.construct 1 4294967295 (some 0)).self.map 32
      4294967295 (some 0)).self.mWritePosition = 4294967295 ∧
    (StreamingVertexBufferInterface.map 32
      ((StreamingVertexBufferInterface.construct 1 4294967295 (some 0)).self.map 32
        4294967295 (some 0)).self 1 (some 0)).offset = some 4294967295 ∧
    (StreamingVertexBufferInterface.map 32
      ((StreamingVertexBufferInterface.construct 1 4294967295 (some 0)).self.map 32
        4294967295 (some 0)).self 1 (some 0)).self.mWritePosition = 0 ∧
    StreamingVertexBufferInterface.mapAll 32
      (StreamingVertexBufferInterface.construct 1 4294967295 (some 0)).self
      [(4294967295, some 0), (1, some 0), (16, some 0)] =
      [(0, 4294967295), (4294967295, 1), (0, 16)] ∧
    ¬ ByteRangesDisjoint (0, 4294967295) (0, 16) := by
  refine ⟨by decide, by decide, by decide, by decide, ?_⟩
  intro h
  exact h 0 (by decide)

/-- Claim C9, amended: a streaming `map` on a present resource whose lock succeeds
returns the write position held before the call and sets the write position to
`mWritePosition + requiredSpace` modulo the range of `size_t`, which is
`mWritePosition + requiredSpace` when that sum does not overflow; capacity, pending
request, serial and resource are unchanged. Over every sequence of calls with no
reservation pass in between (`map`, `unmap` and `addRequiredSpace` calls, with any lock
outcomes), the `map` calls hand out pairwise disjoint byte ranges, each ending where a
later one starts or before, provided the write position plus the total of the sizes
mapped does not overflow `size_t`. -/
theorem streaming_map_advances (w : Nat) (s : StreamingVertexBufferInterface)
    (requiredSpace mapPtr : Nat) (hpresent : s.mVertexBuffer ≠ none) :
    (s.map w requiredSpace (some mapPtr)).mapPtr = some mapPtr ∧
      (s.map w requiredSpace (some mapPtr)).offset = some s.mWritePosition ∧
      (s.map w requiredSpace (some mapPtr)).self.mWritePosition =
        (s.mWritePosition + requiredSpace) % SIZE_RANGE w ∧
      (s.mWritePosition + requiredSpace < SIZE_RANGE w →
        (s.map w requiredSpace (some mapPtr)).self.mWritePosition =
          s.mWritePosition + requiredSpace) ∧
      (s.map w requiredSpace (some mapPtr)).self.mBufferSize = s.mBufferSize ∧
      (s.map w requiredSpace (some mapPtr)).self.mRequiredSpace = s.mRequiredSpace ∧
      (s.map w requiredSpace (some mapPtr)).self.mSerial = s.mSerial ∧
      (s.map w requiredSpace (some mapPtr)).self.mVertexBuffer = s.mVertexBuffer ∧
      (∀ reqs : List (Nat × Option Nat),
        s.mWritePosition + ((s.mapAll w reqs).map Prod.snd).sum < SIZE_RANGE w →
        List.Pairwise ByteRangesDisjoint (s.mapAll w reqs) ∧
          List.Pairwise (fun r1 r2 : Nat × Nat => r1.1 + r1.2 ≤ r2.1) (s.mapAll w reqs)) ∧
      ∀ (ops : List StreamingOp) (mCurrentSerial : Nat),
        (∀ op ∈ ops, op.isPass = false) →
        s.mWritePosition +
            ((StreamingOp.ranges w (mCurrentSerial, s) ops).map Prod.snd).sum <
          SIZE_RANGE w →
        List.Pairwise ByteRangesDisjoint (StreamingOp.ranges w (mCurrentSerial, s) ops) ∧
          List.Pairwise (fun r1 r2 : Nat × Nat => r1.1 + r1.2 ≤ r2.1)
            (StreamingOp.ranges w (mCurrentSerial, s) ops) := by
  obtain ⟨buffer, hbuffer⟩ := Option.ne_none_iff_exists'.mp hpresent
  have hdisjoint : ∀ r1 r2 : Nat × Nat, r1.1 + r1.2 ≤ r2.1 → ByteRangesDisjoint r1 r2 := by
    intro r1 r2 h12 byte hbyte
    omega
  refine ⟨?_, ?_, ?_, ?_, ?_, ?_, ?_, ?_, ?_, ?_⟩
  · simp [StreamingVertexBufferInterface.map, hbuffer]
  · simp [StreamingVertexBufferInterface.map, hbuffer]
  · simp [StreamingVertexBufferInterface.map, hbuffer]
  · intro hfit
    simp [StreamingVertexBufferInterface.map, hbuffer, Nat.mod_eq_of_lt hfit]
  · simp [StreamingVertexBufferInterface.map, hbuffer]
  · simp [StreamingVertexBufferInterface.map, hbuffer]
  · simp [StreamingVertexBufferInterface.map, hbuffer]
  · simp [StreamingVertexBufferInterface.map, hbuffer]
  · intro reqs hfit
    have hord := (mapAll_ordered w reqs s hfit).2
    exact ⟨hord.imp (fun {r1 r2} h => hdisjoint r1 r2 h), hord⟩
  · intro ops mCurrentSerial hops hfit
    have hord := (ranges_ordered w ops (mCurrentSerial, s) hops hfit).2
    exact ⟨hord.imp (fun {r1 r2} h => hdisjoint r1 r2 h), hord⟩

/-- An instance of claim C9: on a streaming interface of 64 bytes, `map` of 24 bytes,
`unmap`, `addRequiredSpace`, `map` of 0 bytes, `unmap`, a `map` whose lock fails, and
`map` of 40 bytes hand out the ranges starting at 0, 24 and 24. -/
theorem streaming_map_advances_witness :
    (StreamingVertexBufferInterface.map 32
        (StreamingVertexBufferInterface.construct 1 64 (some 0)).self 24 (some 7)).offset =
      some 0 ∧
    (StreamingVertexBufferInterface.map 32
        (StreamingVertexBufferInterface.construct 1 64 (some 0)).self 24
        (some 7)).self.mWritePosition = 24 ∧
    StreamingOp.ranges 32 (2, (StreamingVertexBufferInterface.construct 1 64 (some 0)).self)
        [StreamingOp.map 24 (some 7), StreamingOp.unmap, StreamingOp.addRequiredSpace 8,
          StreamingOp.map 0 (some 7), StreamingOp.unmap, StreamingOp.map 8 none,
          StreamingOp.map 40 (some 7), StreamingOp.unmap] =
      [(0, 24), (24, 0), (24, 40)] ∧
    List.Pairwise ByteRangesDisjoint
      (StreamingOp.ranges 32 (2, (StreamingVertexBufferInterface.construct 1 64 (some 0)).self)
        [StreamingOp.map 24 (some 7), StreamingOp.unmap, StreamingOp.addRequiredSpace 8,
          StreamingOp.map 0 (some 7), StreamingOp.unmap, StreamingOp.map 8 none,
          StreamingOp.map 40 (some 7), StreamingOp.unmap]) :=
  have h := streaming_map_advances 32
    (StreamingVertexBufferInterface.construct 1 64 (some 0)).self 24 7 (by decide)
  ⟨h.2.1, (h.2.2.2.1 (by decide)).trans (by decide), by decide,
    (h.2.2.2.2.2.2.2.2.2
      [StreamingOp.map 24 (some 7), StreamingOp.unmap, StreamingOp.addRequiredSpace 8,
        StreamingOp.map 0 (some 7), StreamingOp.unmap, StreamingOp.map 8 none,
        StreamingOp.map 40 (some 7), StreamingOp.unmap] 2 (by decide) (by decide)).1⟩

/-! ## Static `map` -/

/-- Claim C10 fails as stated, at two inputs. First, with a 32-bit `size_t`, a static
interface allocated with 4294967295 bytes and filled by a first `map` of 4294967295
bytes: a further successful `map` of 1 byte returns offset 4294967295 and leaves the
write position at 0, not at `4294967295 + 1`. Second, on a static interface of 48
bytes whose lock succeeds, a `map` for an attribute whose stride is 0 divides by zero
in `attribute.mOffset % attribute.stride()`: it delivers no pointer and no offset,
appends no entry and does not advance the write position. -/
theorem static_map_counterexample :
    (StaticOp.run 32 (1, (StaticVertexBufferInterface.construct 1).self)
      [StaticOp.addRequiredSpace 4294967295, StaticOp.reserveRequiredSpace (some 0),
        StaticOp.map ⟨5126, 3, 12, false, 0⟩ 4294967295 (some 0)]).2.mWritePosition =
      4294967295 ∧
    (StaticVertexBufferInterface.map 32
      (StaticOp.run 32 (1, (StaticVertexBufferInterface.construct 1).self)
        [StaticOp.addRequiredSpace 4294967295, StaticOp.reserveRequiredSpace (some 0),
          StaticOp.map ⟨5126, 3, 12, false, 0⟩ 4294967295 (some 0)]).2
      ⟨5126, 2, 8, false, 4⟩ 1 (some 0)).mapPtr = some 0 ∧
    (StaticVertexBufferInterface.map 32
      (StaticOp.run 32 (1, (StaticVertexBufferInterface.construct 1).self)
        [StaticOp.addRequiredSpace 4294967295, StaticOp.reserveRequiredSpace (some 0),
          StaticOp.map ⟨5126, 3, 12, false, 0⟩ 4294967295 (some 0)]).2
      ⟨5126, 2, 8, false, 4⟩ 1 (some 0)).self.mWritePosition = 0 ∧
    4294967295 + 1 ≠ 0 ∧
    (StaticOp.run 32 (1, (StaticVertexBufferInterface.construct 1).self)
      [StaticOp.addRequiredSpace 48, StaticOp.reserveRequiredSpace (some 0)]).2 =
      ⟨⟨some 0, some 1, 48, 0, 0⟩, []⟩ ∧
    StaticVertexBufferInterface.map 32 ⟨⟨some 0, some 1, 48, 0, 0⟩, []⟩
      ⟨5126, 3, 0, false, 16⟩ 24 (some 7) =
      { self := ⟨⟨some 0, some 1, 48, 0, 0⟩, []⟩
        mapPtr := none
        offset := none
        calls := [BackendCall.Lock 0 24 LockFlags.zero]
        divisionByZero := true } := by
  decide

/-- Claim C10, amended: a static `map` on a present resource whose lock succeeds, for an
attribute whose stride is not 0, appends exactly one entry at the end of the cache,
holding the type, component count, stride and normalized flag of the attribute, the
remainder of its offset by its stride and the write position held before the call; it
returns that write position as the offset, and sets the write position to
`mWritePosition + requiredSpace` modulo the range of `size_t`, which is
`mWritePosition + requiredSpace` when that sum does not overflow. -/
theorem static_map_appends (w : Nat) (s : StaticVertexBufferInterface)
    (attrib : VertexAttribute) (requiredSpace mapPtr : Nat)
    (hpresent : s.mVertexBuffer ≠ none) (hstride : attrib.stride ≠ 0) :
    (s.map w attrib requiredSpace (some mapPtr)).mapPtr = some mapPtr ∧
      (s.map w attrib requiredSpace (some mapPtr)).divisionByZero = false ∧
      (s.map w attrib requiredSpace (some mapPtr)).offset = some s.mWritePosition ∧
      (s.map w attrib requiredSpace (some mapPtr)).self.mCache =
        s.mCache ++
          [{ type := attrib.mType
             size := attrib.mSize
             stride := attrib.stride
             normalized := attrib.mNormalized
             attributeOffset := Int.tmod attrib.mOffset attrib.stride
             streamOffset := s.mWritePosition }] ∧
      (s.map w attrib requiredSpace (some mapPtr)).self.mCache.length =
        s.mCache.length + 1 ∧
      (s.map w attrib requiredSpace (some mapPtr)).self.mWritePosition =
        (s.mWritePosition + requiredSpace) % SIZE_RANGE w ∧
      (s.mWritePosition + requiredSpace < SIZE_RANGE w →
        (s.map w attrib requiredSpace (some mapPtr)).self.mWritePosition =
          s.mWritePosition + requiredSpace) := by
  obtain ⟨buffer, hbuffer⟩ := Option.ne_none_iff_exists'.mp hpresent
  refine ⟨?_, ?_, ?_, ?_, ?_, ?_, ?_⟩
  · simp [StaticVertexBufferInterface.map, hbuffer, hstride]
  · simp [StaticVertexBufferInterface.map, hbuffer, hstride]
  · simp [StaticVertexBufferInterface.map, hbuffer, hstride]
  · simp [StaticVertexBufferInterface.map, StaticVertexBufferInterface.element, hbuffer,
      hstride]
  · simp [StaticVertexBufferInterface.map, hbuffer, hstride]
  · simp [StaticVertexBufferInterface.map, hbuffer, hstride]
  · intro hfit
    simp [StaticVertexBufferInterface.map, hbuffer, hstride, Nat.mod_eq_of_lt hfit]

/-- An instance of claim C10: on a static buffer of 48 bytes holding one entry, a `map`
of 24 bytes for an attribute of stride 12 and offset 124 appends the entry of layout
offset 4 and stream offset 24. -/
theorem static_map_appends_witness :
    (StaticVertexBufferInterface.map 32
        ⟨⟨some 0, some 1, 48, 24, 0⟩, [⟨5126, 3, 12, false, 0, 0⟩]⟩
        ⟨5126, 1, 12, true, 124⟩ 24 (some 7)).self =
      ⟨⟨some 0, some 1, 48, 48, 0⟩,
        [⟨5126, 3, 12, false, 0, 0⟩, ⟨5126, 1, 12, true, 4, 24⟩]⟩ ∧
    (StaticVertexBufferInterface.map 32
        ⟨⟨some 0, some 1, 48, 24, 0⟩, [⟨5126, 3, 12, false, 0, 0⟩]⟩
        ⟨5126, 1, 12, true, 124⟩ 24 (some 7)).offset = some 24 :=
  have h := static_map_appends 32
    ⟨⟨some 0, some 1, 48, 24, 0⟩, [⟨5126, 3, 12, false, 0, 0⟩]⟩
    ⟨5126, 1, 12, true, 124⟩ 24 7 (by decide) (by decide)
  ⟨by decide, h.2.2.1⟩

/-! ## `map` on error -/

/-- Claim C11: for both derivations, when the resource is absent, or when `Lock` fails on
a present resource, `map` returns `NULL`, stores no offset and leaves the whole object
unchanged: write position, capacity, pending request, serial and resource, and for the
static derivation the cache. -/
theorem map_error_is_atomic (w : Nat) (requiredSpace : Nat)
    (lockResult lockResultStatic : Option Nat)
    (attrib : VertexAttribute) (streaming : StreamingVertexBufferInterface)
    (static : StaticVertexBufferInterface)
    (hstreaming : streaming.mVertexBuffer = none ∨ lockResult = none)
    (hstatic : static.mVertexBuffer = none ∨ lockResultStatic = none) :
    ((streaming.map w requiredSpace lockResult).mapPtr = none ∧
      (streaming.map w requiredSpace lockResult).offset = none ∧
      (streaming.map w requiredSpace lockResult).self = streaming) ∧
    ((static.map w attrib requiredSpace lockResultStatic).mapPtr = none ∧
      (static.map w attrib requiredSpace lockResultStatic).offset = none ∧
      (static.map w attrib requiredSpace lockResultStatic).self = static ∧
      (static.map w attrib requiredSpace lockResultStatic).self.mCache = static.mCache) := by
  constructor
  · unfold StreamingVertexBufferInterface.map
    cases hb : streaming.mVertexBuffer with
    | none => exact ⟨rfl, rfl, rfl⟩
    | some buffer =>
      rcases hstreaming with h | h
      · rw [hb] at h; cases h
      · subst h; exact ⟨rfl, rfl, rfl⟩
  · unfold StaticVertexBufferInterface.map
    cases hb : static.mVertexBuffer with
    | none => exact ⟨rfl, rfl, rfl, rfl⟩
    | some buffer =>
      rcases hstatic with h | h
      · rw [hb] at h; cases h
      · subst h; exact ⟨rfl, rfl, rfl, rfl⟩

/-- An instance of claim C11: `Lock` fails on a present streaming resource, and a static
interface has no resource. -/
theorem map_error_is_atomic_witness :
    (StreamingVertexBufferInterface.map 32 ⟨⟨some 0, some 1, 64, 16, 0⟩⟩ 24 none).self =
        ⟨⟨some 0, some 1, 64, 16, 0⟩⟩ ∧
      (StaticVertexBufferInterface.map 32 ⟨⟨none, none, 0, 0, 48⟩, []⟩
        ⟨5126, 3, 12, false, 0⟩ 24 (some 7)).self = ⟨⟨none, none, 0, 0, 48⟩, []⟩ ∧
      (StaticVertexBufferInterface.map 32 ⟨⟨none, none, 0, 0, 48⟩, []⟩
        ⟨5126, 3, 12, false, 0⟩ 24 (some 7)).mapPtr = none :=
  have h := map_error_is_atomic 32 24 none (some 7) ⟨5126, 3, 12, false, 0⟩
    ⟨⟨some 0, some 1, 64, 16, 0⟩⟩ ⟨⟨none, none, 0, 0, 48⟩, []⟩
    (Or.inr rfl) (Or.inl rfl)
  ⟨h.1.2.2, h.2.2.2.1, h.2.1⟩

/-! ## A streaming interface without a resource -/

/-- A call that is not a pass creating a resource leaves an absent resource absent. -/
theorem streaming_apply_keeps_absent (w : Nat) (st : Nat × StreamingVertexBufferInterface)
    (op : StreamingOp) (habsent : st.2.mVertexBuffer = none)
    (hop : ∀ createResult, op = StreamingOp.reserveRequiredSpace createResult →
      st.2.mRequiredSpace > st.2.mBufferSize → createResult = none) :
    (StreamingOp.apply w st op).2.mVertexBuffer = none := by
  cases op with
  | addRequiredSpace n => exact habsent
  | reserveRequiredSpace createResult =>
    simp only [StreamingOp.apply, StreamingVertexBufferInterface.reserveRequiredSpace]
    split_ifs with hgrow hrec
    · exact hop createResult rfl hgrow
    · exact habsent
    · exact habsent
  | map n lockResult =>
    simp [StreamingOp.apply, StreamingVertexBufferInterface.map, habsent]
  | unmap => exact habsent

/-- Over a sequence of calls in which no pass creates a resource, an absent resource
stays absent. -/
theorem streaming_run_keeps_absent (w : Nat) (ops : List StreamingOp) :
    ∀ st : Nat × StreamingVertexBufferInterface, st.2.mVertexBuffer = none →
      StreamingOp.noCreation w st ops → (StreamingOp.run w st ops).2.mVertexBuffer = none := by
  induction ops with
  | nil => intro st habsent _; exact habsent
  | cons op rest ih =>
    intro st habsent hno
    cases op with
    | addRequiredSpace n =>
      exact ih _ (streaming_apply_keeps_absent w st _ habsent (by intro _ h; cases h)) hno
    | reserveRequiredSpace createResult =>
      obtain ⟨hfail, hrest⟩ := hno
      refine ih _ (streaming_apply_keeps_absent w st _ habsent ?_) hrest
      intro cr hcr hgrow
      cases hcr
      exact hfail hgrow
    | map n lockResult =>
      exact ih _ (streaming_apply_keeps_absent w st _ habsent (by intro _ h; cases h)) hno
    | unmap =>
      exact ih _ (streaming_apply_keeps_absent w st _ habsent (by intro _ h; cases h)) hno

/-- A sequence of calls without a growth pass is a sequence without a creation. -/
theorem noGrowth_noCreation (w : Nat) (ops : List StreamingOp) :
    ∀ st : Nat × StreamingVertexBufferInterface,
      StreamingOp.noGrowth w st ops → StreamingOp.noCreation w st ops := by
  induction ops with
  | nil => intro _ _; trivial
  | cons op rest ih =>
    intro st hno
    cases op with
    | addRequiredSpace n => exact ih _ hno
    | reserveRequiredSpace createResult =>
      exact ⟨fun hgrow => absurd hno.1 (Nat.not_le.mpr hgrow), ih _ hno.2⟩
    | map n lockResult => exact ih _ hno
    | unmap => exact ih _ hno

/-- Claim C12: a streaming interface constructed with an initial size above 0 while
`createVertexBuffer` fails has no resource, capacity equal to the initial size, write
position 0 and pending request 0; after every sequence of later calls in which no
reservation pass has successfully created a resource, the resource is still absent and
`map` returns `NULL` without changing the object. -/
theorem construct_failed_creation (w mCurrentSerial initialSize : Nat)
    (hsize : initialSize > 0) :
    (StreamingVertexBufferInterface.construct mCurrentSerial initialSize
        none).self.mVertexBuffer = none ∧
      (StreamingVertexBufferInterface.construct mCurrentSerial initialSize
        none).self.mBufferSize = initialSize ∧
      (StreamingVertexBufferInterface.construct mCurrentSerial initialSize
        none).self.mWritePosition = 0 ∧
      (StreamingVertexBufferInterface.construct mCurrentSerial initialSize
        none).self.mRequiredSpace = 0 ∧
      ∀ (ops : List StreamingOp) (st : Nat × StreamingVertexBufferInterface),
        st = ((StreamingVertexBufferInterface.construct mCurrentSerial initialSize
            none).mCurrentSerial,
          (StreamingVertexBufferInterface.construct mCurrentSerial initialSize none).self) →
        StreamingOp.noCreation w st ops →
        (StreamingOp.run w st ops).2.mVertexBuffer = none ∧
          ∀ (requiredSpace : Nat) (lockResult : Option Nat),
            ((StreamingOp.run w st ops).2.map w requiredSpace lockResult).mapPtr = none ∧
              ((StreamingOp.run w st ops).2.map w requiredSpace lockResult).self =
                (StreamingOp.run w st ops).2 := by
  have hctor : (StreamingVertexBufferInterface.construct mCurrentSerial initialSize
      none).self = ⟨⟨none, some mCurrentSerial, initialSize, 0, 0⟩⟩ := by
    simp [StreamingVertexBufferInterface.construct, VertexBufferInterface.construct,
      VertexBufferInterface.issueSerial, hsize]
  refine ⟨by rw [hctor], by rw [hctor], by rw [hctor], by rw [hctor], ?_⟩
  intro ops st hst hno
  have habsent : st.2.mVertexBuffer = none := by rw [hst, hctor]
  have hrun := streaming_run_keeps_absent w ops st habsent hno
  refine ⟨hrun, ?_⟩
  intro requiredSpace lockResult
  simp [StreamingVertexBufferInterface.map, hrun]

/-- The scenario of claim C12: a failed allocation at construction with 1024 bytes;
after a pass that needs no growth and a pass whose growth allocation fails too, `map`
returns `NULL`. -/
theorem construct_failed_creation_witness :
    (StreamingVertexBufferInterface.construct 1 1024 none).self =
        ⟨⟨none, some 1, 1024, 0, 0⟩⟩ ∧
      (StreamingVertexBufferInterface.map 32
        (StreamingOp.run 32 (2, (StreamingVertexBufferInterface.construct 1 1024 none).self)
          [StreamingOp.addRequiredSpace 512, StreamingOp.reserveRequiredSpace (some 5),
            StreamingOp.map 512 (some 7), StreamingOp.unmap,
            StreamingOp.addRequiredSpace 2048, StreamingOp.reserveRequiredSpace none]).2
        64 (some 7)).mapPtr = none :=
  have h := construct_failed_creation 32 1 1024 (by decide)
  ⟨by decide,
    ((h.2.2.2.2
      [StreamingOp.addRequiredSpace 512, StreamingOp.reserveRequiredSpace (some 5),
        StreamingOp.map 512 (some 7), StreamingOp.unmap,
        StreamingOp.addRequiredSpace 2048, StreamingOp.reserveRequiredSpace none]
      (2, (StreamingVertexBufferInterface.construct 1 1024 none).self) (by decide)
      (by decide)).2 64 (some 7)).1⟩

/-! ## Static `reserveRequiredSpace` and `UNREACHABLE()` -/

/-- Characterisation of the third branch: the pass executes `UNREACHABLE()` exactly when
the resource is present with a capacity below the pending request, or absent with a
capacity other than 0. -/
theorem static_reserve_unreachable_iff (mCurrentSerial : Nat)
    (s : StaticVertexBufferInterface) (createResult : Option Nat) :
    (s.reserveRequiredSpace mCurrentSerial createResult).unreachable = true ↔
      (s.mVertexBuffer ≠ none ∧ s.mBufferSize < s.mRequiredSpace) ∨
        (s.mVertexBuffer = none ∧ s.mBufferSize ≠ 0) := by
  unfold StaticVertexBufferInterface.reserveRequiredSpace
  split_ifs with h1 h2
  · simp only [Bool.false_eq_true, false_iff, not_or, not_and]
    exact ⟨fun h => absurd h1.1 h, fun _ => by simp [h1.2]⟩
  · simp only [Bool.false_eq_true, false_iff, not_or, not_and]
    exact ⟨fun _ => Nat.not_lt.mpr h2.2, fun h => absurd h h2.1⟩
  · simp only [true_iff]
    by_cases hb : s.mVertexBuffer = none
    · right
      exact ⟨hb, fun hz => h1 ⟨hb, hz⟩⟩
    · left
      exact ⟨hb, Nat.not_le.mp (fun hle => h2 ⟨hb, hle⟩)⟩

/-- Claim C13 fails as stated, at two inputs. First, a static interface whose first
pass, with nothing pending, met a successful `createVertexBuffer` has a resource and
capacity 0; its next pass, with 1 byte pending, executes `UNREACHABLE()` although no
non-zero capacity was fixed. Second, a static interface whose first pass, with 48 bytes
pending, met a failing `createVertexBuffer` has no resource and capacity 48; its next
pass, with nothing pending, executes `UNREACHABLE()` although the request does not
exceed the recorded capacity. -/
theorem static_reserve_violation_counterexample :
    (StaticOp.run 32 (1, (StaticVertexBufferInterface.construct 1).self)
      [StaticOp.reserveRequiredSpace (some 0), StaticOp.addRequiredSpace 1]).2 =
      ⟨⟨some 0, some 1, 0, 0, 1⟩, []⟩ ∧
    (StaticVertexBufferInterface.reserveRequiredSpace 2
      ⟨⟨some 0, some 1, 0, 0, 1⟩, []⟩ (some 1)).unreachable = true ∧
    (StaticOp.run 32 (1, (StaticVertexBufferInterface.construct 1).self)
      [StaticOp.addRequiredSpace 48, StaticOp.reserveRequiredSpace none]).2 =
      ⟨⟨none, some 1, 48, 0, 0⟩, []⟩ ∧
    ((StaticVertexBufferInterface.construct 1).self.addRequiredSpace 32
      48).reserveRequiredSpace 1 none =
      { self := ⟨⟨none, some 1, 48, 0, 0⟩, []⟩
        mCurrentSerial := 2
        calls := [BackendCall.createVertexBuffer 48 Usage.D3DUSAGE_WRITEONLY]
        unreachable := false } ∧
    (StaticVertexBufferInterface.reserveRequiredSpace 2
      ⟨⟨none, some 1, 48, 0, 0⟩, []⟩ (some 0)).unreachable = true ∧
    (StaticVertexBufferInterface.reserveRequiredSpace 2
      ⟨⟨none, some 1, 48, 0, 0⟩, []⟩ (some 0)).self.mVertexBuffer = none := by
  decide

/-- Claim C13, amended: on a static interface whose resource is present, the pass
executes `UNREACHABLE()` exactly when the pending request exceeds the capacity, whether
that capacity is 0 or not; on a static interface with no resource and capacity 0 the
pass takes the first-allocation branch and does not execute `UNREACHABLE()`, whatever
`createVertexBuffer` answers. -/
theorem static_reserve_violation (mCurrentSerial : Nat) (s : StaticVertexBufferInterface)
    (createResult : Option Nat) :
    (s.mVertexBuffer ≠ none →
      ((s.reserveRequiredSpace mCurrentSerial createResult).unreachable = true ↔
        s.mRequiredSpace > s.mBufferSize)) ∧
    (s.mVertexBuffer = none → s.mBufferSize = 0 →
      (s.reserveRequiredSpace mCurrentSerial createResult).unreachable = false) := by
  constructor
  · intro hpresent
    have hfirst : ¬ (s.mVertexBuffer = none ∧ s.mBufferSize = 0) := fun h => hpresent h.1
    unfold StaticVertexBufferInterface.reserveRequiredSpace
    rw [if_neg hfirst]
    split_ifs with h2
    · simp only [Bool.false_eq_true, false_iff]
      exact Nat.not_lt.mpr h2.2
    · simp only [true_iff]
      exact Nat.not_le.mp (fun hle => h2 ⟨hpresent, hle⟩)
  · intro habsent hzero
    simp only [StaticVertexBufferInterface.reserveRequiredSpace, if_pos (And.intro habsent hzero)]

/-- An instance of claim C13: with a resource of 48 bytes, 49 bytes pending execute
`UNREACHABLE()` and 48 do not; a first pass does not, even when the allocation fails. -/
theorem static_reserve_violation_witness :
    (StaticVertexBufferInterface.reserveRequiredSpace 2
        ⟨⟨some 0, some 1, 48, 24, 49⟩, []⟩ none).unreachable = true ∧
      ¬ (StaticVertexBufferInterface.reserveRequiredSpace 2
        ⟨⟨some 0, some 1, 48, 24, 48⟩, []⟩ none).unreachable = true ∧
      (StaticVertexBufferInterface.reserveRequiredSpace 1
        ⟨⟨none, none, 0, 0, 48⟩, []⟩ none).unreachable = false :=
  ⟨((static_reserve_violation 2 ⟨⟨some 0, some 1, 48, 24, 49⟩, []⟩ none).1
      (by decide)).mpr (by decide),
    fun h => absurd
      (((static_reserve_violation 2 ⟨⟨some 0, some 1, 48, 24, 48⟩, []⟩ none).1
        (by decide)).mp h) (by decide),
    (static_reserve_violation 1 ⟨⟨none, none, 0, 0, 48⟩, []⟩ none).2 rfl rfl⟩

/-! ## Static capacity and cache over sequences of calls -/

/-- One call on a static interface never lowers the capacity, and changes it only when
it is 0. -/
theorem static_apply_capacity (w : Nat) (st : Nat × StaticVertexBufferInterface)
    (op : StaticOp) :
    st.2.mBufferSize ≤ (StaticOp.apply w st op).2.mBufferSize ∧
      (st.2.mBufferSize ≠ 0 → (StaticOp.apply w st op).2.mBufferSize = st.2.mBufferSize) := by
  cases op with
  | addRequiredSpace n => exact ⟨Nat.le_refl _, fun _ => rfl⟩
  | reserveRequiredSpace createResult =>
    simp only [StaticOp.apply, StaticVertexBufferInterface.reserveRequiredSpace]
    split_ifs with h1 h2
    · refine ⟨?_, fun hne => absurd h1.2 hne⟩
      show st.2.mBufferSize ≤ st.2.mRequiredSpace
      rw [h1.2]
      exact Nat.zero_le _
    · exact ⟨Nat.le_refl _, fun _ => rfl⟩
    · exact ⟨Nat.le_refl _, fun _ => rfl⟩
  | map attrib n lockResult =>
    simp only [StaticOp.apply, StaticVertexBufferInterface.map]
    cases st.2.mVertexBuffer with
    | none => exact ⟨Nat.le_refl _, fun _ => rfl⟩
    | some buffer =>
      cases lockResult with
      | none => exact ⟨Nat.le_refl _, fun _ => rfl⟩
      | some p => split_ifs <;> exact ⟨Nat.le_refl _, fun _ => rfl⟩
  | unmap => exact ⟨Nat.le_refl _, fun _ => rfl⟩
  | lookupAttribute attrib => exact ⟨Nat.le_refl _, fun _ => rfl⟩

/-- Claim C14: over every sequence of calls on a static interface (`addRequiredSpace`,
`reserveRequiredSpace`, `map`, `unmap`, `lookupAttribute`, with any backend outcomes),
the capacity never decreases from one point of the sequence to a later one, and once it
is not 0 no later call changes it. -/
theorem static_capacity_fixed (w : Nat) (st : Nat × StaticVertexBufferInterface)
    (before after : List StaticOp) :
    (StaticOp.run w st before).2.mBufferSize ≤
        (StaticOp.run w st (before ++ after)).2.mBufferSize ∧
      ((StaticOp.run w st before).2.mBufferSize ≠ 0 →
        (StaticOp.run w st (before ++ after)).2.mBufferSize =
          (StaticOp.run w st before).2.mBufferSize) := by
  have hsplit : StaticOp.run w st (before ++ after) =
      StaticOp.run w (StaticOp.run w st before) after := by
    simp [StaticOp.run, List.foldl_append]
  rw [hsplit]
  clear hsplit
  generalize StaticOp.run w st before = mid
  induction after generalizing mid with
  | nil => exact ⟨Nat.le_refl _, fun _ => rfl⟩
  | cons op rest ih =>
    obtain ⟨hle, hfix⟩ := static_apply_capacity w mid op
    obtain ⟨hle2, hfix2⟩ := ih (StaticOp.apply w mid op)
    have hrun : StaticOp.run w mid (op :: rest) =
        StaticOp.run w (StaticOp.apply w mid op) rest := rfl
    rw [hrun]
    refine ⟨Nat.le_trans hle hle2, fun hne => ?_⟩
    have h1 := hfix hne
    rw [hfix2 (by rw [h1]; exact hne), h1]

/-- An instance of claim C14: the capacity is 48 after the first pass and still 48 after
further maps, requests and passes. -/
theorem static_capacity_fixed_witness :
    (StaticOp.run 32 (1, (StaticVertexBufferInterface.construct 1).self)
      ([StaticOp.addRequiredSpace 48, StaticOp.reserveRequiredSpace (some 0)] ++
        [StaticOp.map ⟨5126, 3, 12, false, 0⟩ 24 (some 7), StaticOp.unmap,
          StaticOp.addRequiredSpace 96, StaticOp.reserveRequiredSpace (some 1),
          StaticOp.lookupAttribute ⟨5126, 3, 12, false, 0⟩])).2.mBufferSize = 48 :=
  ((static_capacity_fixed 32 (1, (StaticVertexBufferInterface.construct 1).self)
    [StaticOp.addRequiredSpace 48, StaticOp.reserveRequiredSpace (some 0)]
    [StaticOp.map ⟨5126, 3, 12, false, 0⟩ 24 (some 7), StaticOp.unmap,
      StaticOp.addRequiredSpace 96, StaticOp.reserveRequiredSpace (some 1),
      StaticOp.lookupAttribute ⟨5126, 3, 12, false, 0⟩]).2 (by decide)).trans (by decide)

/-- One call on a static interface leaves the cache held before as the leading part of
the cache held after. -/
theorem static_apply_cache (w : Nat) (st : Nat × StaticVertexBufferInterface) (op : StaticOp) :
    st.2.mCache <+: (StaticOp.apply w st op).2.mCache := by
  cases op with
  | addRequiredSpace n => exact ⟨[], List.append_nil _⟩
  | reserveRequiredSpace createResult =>
    simp only [StaticOp.apply, StaticVertexBufferInterface.reserveRequiredSpace]
    split_ifs <;> exact ⟨[], List.append_nil _⟩
  | map attrib n lockResult =>
    simp only [StaticOp.apply, StaticVertexBufferInterface.map]
    cases st.2.mVertexBuffer with
    | none => exact ⟨[], List.append_nil _⟩
    | some buffer =>
      cases lockResult with
      | none => exact ⟨[], List.append_nil _⟩
      | some p =>
        split_ifs
        · exact ⟨[], List.append_nil _⟩
        · exact ⟨_, rfl⟩
  | unmap => exact ⟨[], List.append_nil _⟩
  | lookupAttribute attrib => exact ⟨[], List.append_nil _⟩

/-- A sequence of calls on a static interface leaves the cache held before as the
leading part of the cache held after. -/
theorem static_run_cache (w : Nat) (ops : List StaticOp) :
    ∀ st : Nat × StaticVertexBufferInterface,
      st.2.mCache <+: (StaticOp.run w st ops).2.mCache := by
  induction ops with
  | nil => intro st; exact ⟨[], List.append_nil _⟩
  | cons op rest ih =>
    intro st
    obtain ⟨t1, h1⟩ := static_apply_cache w st op
    obtain ⟨t2, h2⟩ := ih (StaticOp.apply w st op)
    have hrun : StaticOp.run w st (op :: rest) =
        StaticOp.run w (StaticOp.apply w st op) rest := rfl
    rw [hrun]
    exact ⟨t1 ++ t2, by rw [← List.append_assoc, h1, h2]⟩

/-- Claim C15: every call on a static interface leaves the cache held before as the
leading part of the cache held after; `addRequiredSpace`, `reserveRequiredSpace`, `unmap`
and `lookupAttribute` leave the cache unchanged, a `map` that returns `NULL` leaves it
unchanged, and a `map` that returns a pointer appends exactly one entry. Hence over a
sequence of calls the cache only grows at its end. -/
theorem static_cache_append_only (w : Nat) (st : Nat × StaticVertexBufferInterface) :
    (∀ op : StaticOp, st.2.mCache <+: (StaticOp.apply w st op).2.mCache) ∧
    (∀ n, (StaticOp.apply w st (StaticOp.addRequiredSpace n)).2.mCache = st.2.mCache) ∧
    (∀ createResult,
      (StaticOp.apply w st (StaticOp.reserveRequiredSpace createResult)).2.mCache =
        st.2.mCache) ∧
    (StaticOp.apply w st StaticOp.unmap).2.mCache = st.2.mCache ∧
    (∀ attrib, (StaticOp.apply w st (StaticOp.lookupAttribute attrib)).2.mCache =
      st.2.mCache) ∧
    (∀ attrib n lockResult,
      ((st.2.map w attrib n lockResult).mapPtr = none →
        (StaticOp.apply w st (StaticOp.map attrib n lockResult)).2.mCache = st.2.mCache) ∧
      ((st.2.map w attrib n lockResult).mapPtr ≠ none →
        (StaticOp.apply w st (StaticOp.map attrib n lockResult)).2.mCache =
          st.2.mCache ++ [StaticVertexBufferInterface.element attrib st.2.mWritePosition])) ∧
    (∀ ops : List StaticOp, st.2.mCache <+: (StaticOp.run w st ops).2.mCache) := by
  refine ⟨static_apply_cache w st, fun _ => rfl, ?_, rfl, fun _ => rfl, ?_,
    fun ops => static_run_cache w ops st⟩
  · intro createResult
    simp only [StaticOp.apply, StaticVertexBufferInterface.reserveRequiredSpace]
    split_ifs <;> rfl
  · intro attrib n lockResult
    simp only [StaticOp.apply, StaticVertexBufferInterface.map]
    cases st.2.mVertexBuffer with
    | none => exact ⟨fun _ => rfl, fun h => absurd rfl h⟩
    | some buffer =>
      cases lockResult with
      | none => exact ⟨fun _ => rfl, fun h => absurd rfl h⟩
      | some p =>
        split_ifs
        · exact ⟨fun _ => rfl, fun h => absurd rfl h⟩
        · simp

/-- An instance of claim C15: after a first pass, a successful `map`, a failed `map` and
a second successful `map`, the cache holds the two entries in upload order. -/
theorem static_cache_append_only_witness :
    (StaticOp.run 32 (2, ⟨⟨some 0, some 1, 48, 0, 0⟩, []⟩)
      [StaticOp.map ⟨5126, 3, 12, false, 0⟩ 24 (some 7), StaticOp.unmap,
        StaticOp.map ⟨5126, 2, 8, false, 0⟩ 16 none,
        StaticOp.map ⟨5126, 2, 8, false, 4⟩ 16 (some 7),
        StaticOp.addRequiredSpace 8, StaticOp.reserveRequiredSpace none]).2.mCache =
      [⟨5126, 3, 12, false, 0, 0⟩, ⟨5126, 2, 8, false, 4, 24⟩] ∧
    [⟨5126, 3, 12, false, 0, 0⟩] <+:
      (StaticOp.run 32 (2, ⟨⟨some 0, some 1, 48, 24, 0⟩, [⟨5126, 3, 12, false, 0, 0⟩]⟩)
        [StaticOp.map ⟨5126, 2, 8, false, 4⟩ 16 (some 7)]).2.mCache :=
  ⟨by decide,
    (static_cache_append_only 32
      (2, ⟨⟨some 0, some 1, 48, 24, 0⟩, [⟨5126, 3, 12, false, 0, 0⟩]⟩)).2.2.2.2.2.2
      [StaticOp.map ⟨5126, 2, 8, false, 4⟩ 16 (some 7)]⟩

/-! ## `issueSerial` and `updateSerial` -/

/-- After `n` calls of `updateSerial` the counter has advanced by `n`, modulo the range
of `unsigned int`. -/
theorem updateSerials_eq (n c : Nat) (hc : c < UINT_RANGE) :
    VertexBuffer.updateSerials n c = (c + n) % UINT_RANGE := by
  induction n generalizing c with
  | zero => simp [VertexBuffer.updateSerials, Nat.mod_eq_of_lt hc]
  | succ k ih =>
    have hlt : (c + 1) % UINT_RANGE < UINT_RANGE := Nat.mod_lt _ (by decide)
    simp only [VertexBuffer.updateSerials, VertexBuffer.updateSerial]
    rw [ih _ hlt, Nat.add_mod, Nat.mod_mod, ← Nat.add_mod]
    congr 1
    omega

/-- The `k`-th serial drawn from either counter is `k` modulo the range of
`unsigned int`. -/
theorem nthSerial_eq (k : Nat) (hk : 1 ≤ k) :
    VertexBufferInterface.nthSerial k = k % UINT_RANGE ∧
      VertexBuffer.nthSerial k = k % UINT_RANGE := by
  have hone : (1 : Nat) < UINT_RANGE := by decide
  have hk1 : 1 + (k - 1) = k := by omega
  constructor
  · unfold VertexBufferInterface.nthSerial VertexBufferInterface.issueSerial
      VertexBufferInterface.mCurrentSerial
    rw [issueSerials_eq _ _ hone, hk1]
  · unfold VertexBuffer.nthSerial VertexBuffer.updateSerial VertexBuffer.getSerial
      VertexBuffer.mNextSerial
    rw [updateSerials_eq _ _ hone, hk1]

/-- Claim C16 fails as stated. When the counter holds 4294967295, `issueSerial` returns
4294967295 and leaves the counter at 0, not at 4294967296; so the 4294967296th serial
issued from a counter that started at 1 is 0, and it is smaller than the serial issued
just before it. The same holds of `updateSerial`. -/
theorem issueSerial_counterexample :
    VertexBufferInterface.issueSerial 4294967295 = (4294967295, 0) ∧
    VertexBufferInterface.nthSerial 4294967295 = 4294967295 ∧
    VertexBufferInterface.nthSerial 4294967296 = 0 ∧
    VertexBuffer.nthSerial 4294967296 = 0 ∧
    ¬ VertexBufferInterface.nthSerial 4294967295 <
      VertexBufferInterface.nthSerial 4294967296 := by
  have h1 : VertexBufferInterface.nthSerial 4294967295 = 4294967295 :=
    (nthSerial_eq 4294967295 (by decide)).1.trans (by decide)
  have h2 : VertexBufferInterface.nthSerial 4294967296 = 0 :=
    (nthSerial_eq 4294967296 (by decide)).1.trans (by decide)
  have h3 : VertexBuffer.nthSerial 4294967296 = 0 :=
    (nthSerial_eq 4294967296 (by decide)).2.trans (by decide)
  refine ⟨by decide, h1, h2, h3, ?_⟩
  rw [h1, h2]
  decide

/-- Claim C16, amended: `issueSerial` returns the counter's current value and sets the
counter to that value plus one modulo the range of `unsigned int`, which is the value
plus one below 4294967295; each counter starts at 1, so for `1 ≤ k < 2 ^ 32` the `k`-th
serial drawn from either counter is `k`, and for `1 ≤ k` with `k + 1 < 2 ^ 32` the
`k`-th serial is below the next; a draw from one counter leaves the other unchanged. -/
theorem issueSerial_counts (c k : Nat) (g : Counters) (self : VertexBuffer) :
    VertexBufferInterface.issueSerial c = (c, (c + 1) % UINT_RANGE) ∧
    (c + 1 < UINT_RANGE → (VertexBufferInterface.issueSerial c).2 = c + 1) ∧
    ((VertexBuffer.updateSerial c self).1.getSerial = c ∧
      (VertexBuffer.updateSerial c self).2 = (c + 1) % UINT_RANGE) ∧
    (VertexBufferInterface.mCurrentSerial = 1 ∧ VertexBuffer.mNextSerial = 1) ∧
    (1 ≤ k → k < UINT_RANGE →
      VertexBufferInterface.nthSerial k = k ∧ VertexBuffer.nthSerial k = k) ∧
    (1 ≤ k → k + 1 < UINT_RANGE →
      VertexBufferInterface.nthSerial k < VertexBufferInterface.nthSerial (k + 1) ∧
        VertexBuffer.nthSerial k < VertexBuffer.nthSerial (k + 1)) ∧
    (g.issueSerial.2.mNextSerial = g.mNextSerial ∧
      (g.updateSerial self).2.mCurrentSerial = g.mCurrentSerial) := by
  have hnth : ∀ j, 1 ≤ j → j < UINT_RANGE →
      VertexBufferInterface.nthSerial j = j ∧ VertexBuffer.nthSerial j = j := by
    intro j h1 h2
    obtain ⟨ha, hb⟩ := nthSerial_eq j h1
    rw [ha, hb, Nat.mod_eq_of_lt h2]
    exact ⟨rfl, rfl⟩
  refine ⟨rfl, ?_, ⟨rfl, rfl⟩, ⟨rfl, rfl⟩, hnth k, ?_, ⟨rfl, rfl⟩⟩
  · intro h
    exact Nat.mod_eq_of_lt h
  · intro h1 h2
    obtain ⟨a1, b1⟩ := hnth k h1 (by omega)
    obtain ⟨a2, b2⟩ := hnth (k + 1) (by omega) h2
    rw [a1, a2, b1, b2]
    exact ⟨Nat.lt_succ_self k, Nat.lt_succ_self k⟩

/-- An instance of claim C16: the third serial drawn from a counter is 3, and a draw
from the interface counter leaves the abstract-buffer counter at 5. -/
theorem issueSerial_counts_witness :
    VertexBufferInterface.nthSerial 3 = 3 ∧ VertexBuffer.nthSerial 3 = 3 ∧
      (Counters.issueSerial ⟨5, 9⟩).2.mNextSerial = 5 ∧
      (Counters.issueSerial ⟨5, 9⟩).1 = 9 :=
  have h := issueSerial_counts 9 3 ⟨5, 9⟩ ⟨0⟩
  ⟨(h.2.2.2.2.1 (by decide) (by decide)).1, (h.2.2.2.2.1 (by decide) (by decide)).2,
    h.2.2.2.2.2.2.1, by decide⟩

/-! ## `addRequiredSpace` -/

/-- A sequence of `addRequiredSpace` calls changes only `mRequiredSpace`, whose value
afterwards is congruent to the value before plus the sum of the requests. -/
theorem addRequiredSpace_fold (w : Nat) (requests : List Nat) :
    ∀ s : VertexBufferInterface,
      requests.foldl (VertexBufferInterface.addRequiredSpace w) s =
          { s with mRequiredSpace :=
              (requests.foldl (VertexBufferInterface.addRequiredSpace w) s).mRequiredSpace } ∧
        (requests.foldl (VertexBufferInterface.addRequiredSpace w) s).mRequiredSpace %
            SIZE_RANGE w = (s.mRequiredSpace + requests.sum) % SIZE_RANGE w ∧
        (requests ≠ [] →
          (requests.foldl (VertexBufferInterface.addRequiredSpace w) s).mRequiredSpace <
            SIZE_RANGE w) := by
  have hpos : 0 < SIZE_RANGE w := by
    unfold SIZE_RANGE
    positivity
  induction requests with
  | nil => intro s; exact ⟨rfl, rfl, fun h => absurd rfl h⟩
  | cons n rest ih =>
    intro s
    obtain ⟨h1, h2, h3⟩ := ih (s.addRequiredSpace w n)
    simp only [List.foldl_cons, List.sum_cons]
    refine ⟨?_, ?_, fun _ => ?_⟩
    · rw [h1]
      rfl
    · rw [h2]
      show ((s.mRequiredSpace + n) % SIZE_RANGE w + rest.sum) % SIZE_RANGE w = _
      rw [Nat.mod_add_mod, Nat.add_assoc]
    · cases rest with
      | nil => exact Nat.mod_lt _ hpos
      | cons m rest2 => exact h3 (by simp)

/-- The inherited `addRequiredSpace` of the two derivations acts on the base members. -/
theorem addRequiredSpace_fold_derived (w : Nat) (requests : List Nat) :
    (∀ s : StreamingVertexBufferInterface,
      requests.foldl (StreamingVertexBufferInterface.addRequiredSpace w) s =
        { s with toVertexBufferInterface :=
            (requests.foldl (VertexBufferInterface.addRequiredSpace w)
              s.toVertexBufferInterface) }) ∧
    (∀ s : StaticVertexBufferInterface,
      requests.foldl (StaticVertexBufferInterface.addRequiredSpace w) s =
        { s with toVertexBufferInterface :=
            (requests.foldl (VertexBufferInterface.addRequiredSpace w)
              s.toVertexBufferInterface) }) := by
  induction requests with
  | nil => exact ⟨fun _ => rfl, fun _ => rfl⟩
  | cons n rest ih =>
    constructor
    · intro s
      simp only [List.foldl_cons]
      rw [ih.1]
      rfl
    · intro s
      simp only [List.foldl_cons]
      rw [ih.2]
      rfl

/-- The pending request after a sequence of `addRequiredSpace` calls does not depend on
the order of the calls. -/
theorem addRequiredSpace_fold_perm (w : Nat) (requests other : List Nat)
    (hperm : requests.Perm other) (s : VertexBufferInterface) :
    requests.foldl (VertexBufferInterface.addRequiredSpace w) s =
      other.foldl (VertexBufferInterface.addRequiredSpace w) s := by
  obtain ⟨h1, h2, h3⟩ := addRequiredSpace_fold w requests s
  obtain ⟨k1, k2, k3⟩ := addRequiredSpace_fold w other s
  by_cases hnil : requests = []
  · subst hnil
    rw [List.nil_perm.mp hperm]
  · have hother : other ≠ [] := fun h => hnil (by subst h; exact List.perm_nil.mp hperm)
    rw [h1, k1]
    have hsum : requests.sum = other.sum := hperm.sum_eq
    have heq : (requests.foldl (VertexBufferInterface.addRequiredSpace w) s).mRequiredSpace =
        (other.foldl (VertexBufferInterface.addRequiredSpace w) s).mRequiredSpace := by
      rw [← Nat.mod_eq_of_lt (h3 hnil), ← Nat.mod_eq_of_lt (k3 hother), h2, k2, hsum]
    rw [heq]

/-- Claim C17 fails as stated. With a 32-bit `size_t`, on a newly constructed streaming
interface, `addRequiredSpace(4294967295)` followed by `addRequiredSpace(1)` leaves the
pending request at 0, not at `0 + 4294967295 + 1`. -/
theorem addRequiredSpace_counterexample :
    (StreamingVertexBufferInterface.construct 1 64 (some 0)).self.mRequiredSpace = 0 ∧
    ([4294967295, 1].foldl (StreamingVertexBufferInterface.addRequiredSpace 32)
      (StreamingVertexBufferInterface.construct 1 64 (some 0)).self).mRequiredSpace = 0 ∧
    0 + [4294967295, 1].sum ≠ 0 := by
  decide

/-- Claim C17, amended: for both derivations, from every object and for every list of
requests, the `addRequiredSpace` calls leave the pending request equal to its previous
value plus the sum of the requests when that total does not overflow `size_t`, and to
that total modulo the range of `size_t` in general; the result does not depend on the
order of the calls; no other member changes (capacity, write position, serial,
resource, and the cache of a static interface). -/
theorem addRequiredSpace_additive (w : Nat) (requests other : List Nat) :
    (∀ s : StreamingVertexBufferInterface,
      (s.mRequiredSpace + requests.sum < SIZE_RANGE w →
        (requests.foldl (StreamingVertexBufferInterface.addRequiredSpace w) s).mRequiredSpace =
          s.mRequiredSpace + requests.sum) ∧
      (requests ≠ [] →
        (requests.foldl (StreamingVertexBufferInterface.addRequiredSpace w) s).mRequiredSpace =
          (s.mRequiredSpace + requests.sum) % SIZE_RANGE w) ∧
      requests.foldl (StreamingVertexBufferInterface.addRequiredSpace w) s =
        { s with mRequiredSpace :=
            (requests.foldl (StreamingVertexBufferInterface.addRequiredSpace w)
              s).mRequiredSpace } ∧
      (requests.Perm other →
        other.foldl (StreamingVertexBufferInterface.addRequiredSpace w) s =
          requests.foldl (StreamingVertexBufferInterface.addRequiredSpace w) s)) ∧
    (∀ s : StaticVertexBufferInterface,
      (s.mRequiredSpace + requests.sum < SIZE_RANGE w →
        (requests.foldl (StaticVertexBufferInterface.addRequiredSpace w) s).mRequiredSpace =
          s.mRequiredSpace + requests.sum) ∧
      (requests ≠ [] →
        (requests.foldl (StaticVertexBufferInterface.addRequiredSpace w) s).mRequiredSpace =
          (s.mRequiredSpace + requests.sum) % SIZE_RANGE w) ∧
      requests.foldl (StaticVertexBufferInterface.addRequiredSpace w) s =
        { s with mRequiredSpace :=
            (requests.foldl (StaticVertexBufferInterface.addRequiredSpace w)
              s).mRequiredSpace } ∧
      (requests.Perm other →
        other.foldl (StaticVertexBufferInterface.addRequiredSpace w) s =
          requests.foldl (StaticVertexBufferInterface.addRequiredSpace w) s)) := by
  have hbase : ∀ b : VertexBufferInterface,
      (b.mRequiredSpace + requests.sum < SIZE_RANGE w →
        (requests.foldl (VertexBufferInterface.addRequiredSpace w) b).mRequiredSpace =
          b.mRequiredSpace + requests.sum) ∧
      (requests ≠ [] →
        (requests.foldl (VertexBufferInterface.addRequiredSpace w) b).mRequiredSpace =
          (b.mRequiredSpace + requests.sum) % SIZE_RANGE w) := by
    intro b
    obtain ⟨h1, h2, h3⟩ := addRequiredSpace_fold w requests b
    have hgen : requests ≠ [] →
        (requests.foldl (VertexBufferInterface.addRequiredSpace w) b).mRequiredSpace =
          (b.mRequiredSpace + requests.sum) % SIZE_RANGE w := by
      intro hne
      rw [← h2, Nat.mod_eq_of_lt (h3 hne)]
    refine ⟨fun hfit => ?_, hgen⟩
    by_cases hnil : requests = []
    · subst hnil
      simp
    · rw [hgen hnil, Nat.mod_eq_of_lt hfit]
  constructor
  · intro s
    rw [(addRequiredSpace_fold_derived w requests).1 s]
    refine ⟨(hbase s.toVertexBufferInterface).1, (hbase s.toVertexBufferInterface).2, ?_, ?_⟩
    · have h := (addRequiredSpace_fold w requests s.toVertexBufferInterface).1
      show StreamingVertexBufferInterface.mk _ = StreamingVertexBufferInterface.mk _
      rw [h]
    · intro hperm
      rw [(addRequiredSpace_fold_derived w other).1 s,
        addRequiredSpace_fold_perm w requests other hperm]
  · intro s
    rw [(addRequiredSpace_fold_derived w requests).2 s]
    refine ⟨(hbase s.toVertexBufferInterface).1, (hbase s.toVertexBufferInterface).2, ?_, ?_⟩
    · have h := (addRequiredSpace_fold w requests s.toVertexBufferInterface).1
      show StaticVertexBufferInterface.mk _ _ = StaticVertexBufferInterface.mk _ _
      rw [h]
    · intro hperm
      rw [(addRequiredSpace_fold_derived w other).2 s,
        addRequiredSpace_fold_perm w requests other hperm]

/-- An instance of claim C17: three requests of 12, 24 and 12 bytes on a static
interface that already has 16 pending leave 64 pending and touch nothing else. -/
theorem addRequiredSpace_additive_witness :
    [12, 24, 12].foldl (StaticVertexBufferInterface.addRequiredSpace 32)
        ⟨⟨some 0, some 1, 96, 32, 16⟩, [⟨5126, 3, 12, false, 0, 0⟩]⟩ =
      ⟨⟨some 0, some 1, 96, 32, 64⟩, [⟨5126, 3, 12, false, 0, 0⟩]⟩ ∧
    ([12, 24, 12].foldl (StaticVertexBufferInterface.addRequiredSpace 32)
        ⟨⟨some 0, some 1, 96, 32, 16⟩, [⟨5126, 3, 12, false, 0, 0⟩]⟩).mRequiredSpace =
      16 + [12, 24, 12].sum :=
  ⟨by decide,
    ((addRequiredSpace_additive 32 [12, 24, 12] [24, 12, 12]).2
      ⟨⟨some 0, some 1, 96, 32, 16⟩, [⟨5126, 3, 12, false, 0, 0⟩]⟩).1 (by decide)⟩

/-! ## Room left by a static pass -/

/-- In every state a static interface reaches from its construction, the write position
is 0 while the resource is absent, and the pending request is a `size_t` value. -/
theorem static_reachable_invariant (w mCurrentSerial : Nat) (ops : List StaticOp) :
    ((StaticOp.run w (mCurrentSerial, (StaticVertexBufferInterface.construct
        mCurrentSerial).self) ops).2.mVertexBuffer = none →
      (StaticOp.run w (mCurrentSerial, (StaticVertexBufferInterface.construct
        mCurrentSerial).self) ops).2.mWritePosition = 0) ∧
    (StaticOp.run w (mCurrentSerial, (StaticVertexBufferInterface.construct
      mCurrentSerial).self) ops).2.mRequiredSpace < SIZE_RANGE w := by
  have hpos : 0 < SIZE_RANGE w := by
    unfold SIZE_RANGE
    positivity
  have hstep : ∀ (st : Nat × StaticVertexBufferInterface) (op : StaticOp),
      ((st.2.mVertexBuffer = none → st.2.mWritePosition = 0) ∧
        st.2.mRequiredSpace < SIZE_RANGE w) →
      (((StaticOp.apply w st op).2.mVertexBuffer = none →
          (StaticOp.apply w st op).2.mWritePosition = 0) ∧
        (StaticOp.apply w st op).2.mRequiredSpace < SIZE_RANGE w) := by
    intro st op hinv
    obtain ⟨hcur, hreq⟩ := hinv
    cases op with
    | addRequiredSpace n => exact ⟨hcur, Nat.mod_lt _ hpos⟩
    | reserveRequiredSpace createResult =>
      simp only [StaticOp.apply, StaticVertexBufferInterface.reserveRequiredSpace]
      split_ifs with h1 h2
      · exact ⟨fun _ => hcur h1.1, hpos⟩
      · exact ⟨hcur, hpos⟩
      · exact ⟨hcur, hpos⟩
    | map attrib n lockResult =>
      cases hb : st.2.mVertexBuffer with
      | none =>
        simp only [StaticOp.apply, StaticVertexBufferInterface.map, hb]
        exact ⟨fun _ => hcur hb, hreq⟩
      | some buffer =>
        by_cases hz : attrib.stride = 0 <;> cases lockResult <;>
          simp [StaticOp.apply, StaticVertexBufferInterface.map, hb, hreq, hz]
    | unmap => exact ⟨hcur, hreq⟩
    | lookupAttribute attrib => exact ⟨hcur, hreq⟩
  have hrun : ∀ (ops : List StaticOp) (st : Nat × StaticVertexBufferInterface),
      ((st.2.mVertexBuffer = none → st.2.mWritePosition = 0) ∧
        st.2.mRequiredSpace < SIZE_RANGE w) →
      (((StaticOp.run w st ops).2.mVertexBuffer = none →
          (StaticOp.run w st ops).2.mWritePosition = 0) ∧
        (StaticOp.run w st ops).2.mRequiredSpace < SIZE_RANGE w) := by
    intro ops
    induction ops with
    | nil => intro st h; exact h
    | cons op rest ih => intro st h; exact ih _ (hstep st op h)
  exact hrun ops _ ⟨fun _ => rfl, hpos⟩

/-- While the write position plus the sizes mapped stays within a bound that is a
`size_t` value, every range handed out by consecutive static `map` calls ends within
the bound. -/
theorem static_mapAll_inside (w bound : Nat) (hbound : bound < SIZE_RANGE w)
    (reqs : List (VertexAttribute × Nat × Option Nat)) :
    ∀ s : StaticVertexBufferInterface,
      s.mWritePosition + ((s.mapAll w reqs).map Prod.snd).sum ≤ bound →
      ∀ r ∈ s.mapAll w reqs, s.mWritePosition ≤ r.1 ∧ r.1 + r.2 ≤ bound := by
  induction reqs with
  | nil =>
    intro s _ r hr
    simp [StaticVertexBufferInterface.mapAll] at hr
  | cons req rest ih =>
    intro s hfit
    cases hb : s.mVertexBuffer with
    | none =>
      have hstep : s.mapAll w (req :: rest) = s.mapAll w rest := by
        simp [StaticVertexBufferInterface.mapAll, StaticVertexBufferInterface.map, hb]
      rw [hstep] at hfit ⊢
      exact ih s hfit
    | some buffer =>
      cases hl : req.2.2 with
      | none =>
        have hstep : s.mapAll w (req :: rest) = s.mapAll w rest := by
          simp [StaticVertexBufferInterface.mapAll, StaticVertexBufferInterface.map, hb, hl]
        rw [hstep] at hfit ⊢
        exact ih s hfit
      | some mapPtr =>
        by_cases hz : req.1.stride = 0
        · have hstep : s.mapAll w (req :: rest) = s.mapAll w rest := by
            simp [StaticVertexBufferInterface.mapAll, StaticVertexBufferInterface.map, hb, hl,
              hz]
          rw [hstep] at hfit ⊢
          exact ih s hfit
        have hstep : s.mapAll w (req :: rest) =
            (s.mWritePosition, req.2.1) ::
              StaticVertexBufferInterface.mapAll w
                { s with
                  mCache := s.mCache ++
                    [StaticVertexBufferInterface.element req.1 s.mWritePosition]
                  mWritePosition := (s.mWritePosition + req.2.1) % SIZE_RANGE w } rest := by
          simp [StaticVertexBufferInterface.mapAll, StaticVertexBufferInterface.map, hb, hl,
            hz]
        rw [hstep] at hfit ⊢
        simp only [List.map_cons, List.sum_cons] at hfit
        have hlt : s.mWritePosition + req.2.1 < SIZE_RANGE w := by omega
        rw [Nat.mod_eq_of_lt hlt] at hfit ⊢
        have hrest := ih
          { s with
            mCache := s.mCache ++
              [StaticVertexBufferInterface.element req.1 s.mWritePosition]
            mWritePosition := s.mWritePosition + req.2.1 } (by
            show s.mWritePosition + req.2.1 + _ ≤ bound
            omega)
        intro r hr
        rcases List.mem_cons.mp hr with rfl | hr
        · exact ⟨Nat.le_refl _, by show s.mWritePosition + req.2.1 ≤ bound; omega⟩
        · have h := hrest r hr
          have h1 : s.mWritePosition + req.2.1 ≤ r.1 := h.1
          exact ⟨by omega, h.2⟩

/-- Claim C18 fails as stated. A static interface allocated with 48 bytes has mapped 24
of them; a pass with 48 bytes pending completes without executing `UNREACHABLE()`,
because 48 does not exceed the capacity, and leaves write position 24 and capacity 48:
`24 + 48 > 48`. The `map` of 48 bytes that follows is handed the range starting at 24,
which ends at 72, beyond the capacity. -/
theorem static_reserve_room_counterexample :
    (StaticOp.run 32 (1, (StaticVertexBufferInterface.construct 1).self)
      [StaticOp.addRequiredSpace 48, StaticOp.reserveRequiredSpace (some 0),
        StaticOp.map ⟨5126, 3, 12, false, 0⟩ 24 (some 7), StaticOp.unmap,
        StaticOp.addRequiredSpace 48]) =
      (2, ⟨⟨some 0, some 1, 48, 24, 48⟩, [⟨5126, 3, 12, false, 0, 0⟩]⟩) ∧
    StaticVertexBufferInterface.reserveRequiredSpace 2
      ⟨⟨some 0, some 1, 48, 24, 48⟩, [⟨5126, 3, 12, false, 0, 0⟩]⟩ none =
      { self := ⟨⟨some 0, some 1, 48, 24, 0⟩, [⟨5126, 3, 12, false, 0, 0⟩]⟩
        mCurrentSerial := 2
        calls := []
        unreachable := false } ∧
    ¬ 24 + 48 ≤ 48 ∧
    StaticVertexBufferInterface.mapAll 32
      ⟨⟨some 0, some 1, 48, 24, 0⟩, [⟨5126, 3, 12, false, 0, 0⟩]⟩
      [(⟨5126, 2, 8, false, 0⟩, 48, some 7)] = [(24, 48)] := by
  decide

/-- Claim C18, amended: in every state a static interface reaches from its construction
with the resource still absent, whenever `reserveRequiredSpace` completes without
executing `UNREACHABLE()` for a pending request `R`, the capacity afterwards is `R` and
the write position is 0, so `mWritePosition + R ≤ mBufferSize`, and consecutive maps
whose sizes total at most `R` are each handed a byte range that ends within the
capacity. -/
theorem static_reserve_room (w mCurrentSerial : Nat) (ops : List StaticOp)
    (createResult : Option Nat) (st : Nat × StaticVertexBufferInterface)
    (hst : st = StaticOp.run w (mCurrentSerial,
      (StaticVertexBufferInterface.construct mCurrentSerial).self) ops)
    (habsent : st.2.mVertexBuffer = none)
    (hok : (st.2.reserveRequiredSpace st.1 createResult).unreachable = false) :
    (st.2.reserveRequiredSpace st.1 createResult).self.mBufferSize = st.2.mRequiredSpace ∧
      (st.2.reserveRequiredSpace st.1 createResult).self.mWritePosition = 0 ∧
      (st.2.reserveRequiredSpace st.1 createResult).self.mWritePosition +
          st.2.mRequiredSpace ≤
        (st.2.reserveRequiredSpace st.1 createResult).self.mBufferSize ∧
      ∀ reqs : List (VertexAttribute × Nat × Option Nat),
        (((st.2.reserveRequiredSpace st.1 createResult).self.mapAll w reqs).map
          Prod.snd).sum ≤ st.2.mRequiredSpace →
        ∀ r ∈ (st.2.reserveRequiredSpace st.1 createResult).self.mapAll w reqs,
          r.1 + r.2 ≤ (st.2.reserveRequiredSpace st.1 createResult).self.mBufferSize := by
  obtain ⟨hcur, hreq⟩ := static_reachable_invariant w mCurrentSerial ops
  rw [← hst] at hcur hreq
  have hcursor : st.2.mWritePosition = 0 := hcur habsent
  have hzero : st.2.mBufferSize = 0 := by
    by_contra hne
    have := (static_reserve_unreachable_iff st.1 st.2 createResult).mpr
      (Or.inr ⟨habsent, hne⟩)
    rw [hok] at this
    cases this
  have hfirst : st.2.mVertexBuffer = none ∧ st.2.mBufferSize = 0 := ⟨habsent, hzero⟩
  have hself : (st.2.reserveRequiredSpace st.1 createResult).self.mBufferSize =
        st.2.mRequiredSpace ∧
      (st.2.reserveRequiredSpace st.1 createResult).self.mWritePosition = 0 := by
    simp only [StaticVertexBufferInterface.reserveRequiredSpace, if_pos hfirst]
    exact ⟨trivial, hcursor⟩
  refine ⟨hself.1, hself.2, by rw [hself.1, hself.2]; omega, ?_⟩
  intro reqs hsum r hr
  rw [hself.1]
  exact (static_mapAll_inside w st.2.mRequiredSpace hreq reqs _
    (by rw [hself.2]; omega) r hr).2

/-- An instance of claim C18: a first pass with 48 bytes pending, then maps of 24, 8 and
16 bytes, handed the ranges starting at 0, 24 and 32. -/
theorem static_reserve_room_witness :
    StaticVertexBufferInterface.mapAll 32
        (StaticVertexBufferInterface.reserveRequiredSpace 1
          ⟨⟨none, none, 0, 0, 48⟩, []⟩ (some 0)).self
        [(⟨5126, 3, 12, false, 0⟩, 24, some 7), (⟨5126, 2, 8, false, 0⟩, 8, some 7),
          (⟨5126, 2, 8, false, 4⟩, 16, some 7)] =
      [(0, 24), (24, 8), (32, 16)] ∧
    (StaticVertexBufferInterface.reserveRequiredSpace 1
      ⟨⟨none, none, 0, 0, 48⟩, []⟩ (some 0)).self.mBufferSize = 48 :=
  have h := static_reserve_room 32 1 [StaticOp.addRequiredSpace 48] (some 0)
    (1, ⟨⟨none, none, 0, 0, 48⟩, []⟩) (by decide) (by decide) (by decide)
  ⟨by decide, h.1⟩

/-! ## Room left by a streaming pass -/

/-- While the write position plus the sizes mapped stays within a bound that is a
`size_t` value, every range handed out by consecutive streaming `map` calls ends within
the bound, the write position ends at its initial value plus the sizes mapped, and the
capacity is unchanged. -/
theorem streaming_mapAll_inside (w bound : Nat) (hbound : bound < SIZE_RANGE w)
    (reqs : List (Nat × Option Nat)) :
    ∀ s : StreamingVertexBufferInterface,
      s.mWritePosition + ((s.mapAll w reqs).map Prod.snd).sum ≤ bound →
      (∀ r ∈ s.mapAll w reqs, s.mWritePosition ≤ r.1 ∧ r.1 + r.2 ≤ bound) ∧
        (s.mapAllSelf w reqs).mWritePosition =
          s.mWritePosition + ((s.mapAll w reqs).map Prod.snd).sum ∧
        (s.mapAllSelf w reqs).mBufferSize = s.mBufferSize := by
  induction reqs with
  | nil =>
    intro s _
    simp [StreamingVertexBufferInterface.mapAll, StreamingVertexBufferInterface.mapAllSelf]
  | cons req rest ih =>
    intro s hfit
    cases hb : s.mVertexBuffer with
    | none =>
      have hstep : s.mapAll w (req :: rest) = s.mapAll w rest := by
        simp [StreamingVertexBufferInterface.mapAll, StreamingVertexBufferInterface.map, hb]
      have hself : s.mapAllSelf w (req :: rest) = s.mapAllSelf w rest := by
        simp [StreamingVertexBufferInterface.mapAllSelf, StreamingVertexBufferInterface.map, hb]
      rw [hstep] at hfit ⊢
      rw [hself]
      exact ih s hfit
    | some buffer =>
      cases hl : req.2 with
      | none =>
        have hstep : s.mapAll w (req :: rest) = s.mapAll w rest := by
          simp [StreamingVertexBufferInterface.mapAll, StreamingVertexBufferInterface.map,
            hb, hl]
        have hself : s.mapAllSelf w (req :: rest) = s.mapAllSelf w rest := by
          simp [StreamingVertexBufferInterface.mapAllSelf, StreamingVertexBufferInterface.map,
            hb, hl]
        rw [hstep] at hfit ⊢
        rw [hself]
        exact ih s hfit
      | some mapPtr =>
        have hstep : s.mapAll w (req :: rest) =
            (s.mWritePosition, req.1) ::
              StreamingVertexBufferInterface.mapAll w
                { s with mWritePosition := (s.mWritePosition + req.1) % SIZE_RANGE w } rest := by
          simp [StreamingVertexBufferInterface.mapAll, StreamingVertexBufferInterface.map,
            hb, hl]
        have hself : s.mapAllSelf w (req :: rest) =
            StreamingVertexBufferInterface.mapAllSelf w
              { s with mWritePosition := (s.mWritePosition + req.1) % SIZE_RANGE w } rest := by
          simp [StreamingVertexBufferInterface.mapAllSelf, StreamingVertexBufferInterface.map,
            hb, hl]
        rw [hstep] at hfit ⊢
        rw [hself]
        simp only [List.map_cons, List.sum_cons] at hfit ⊢
        have hlt : s.mWritePosition + req.1 < SIZE_RANGE w := by omega
        rw [Nat.mod_eq_of_lt hlt] at hfit ⊢
        obtain ⟨hranges, hcursor, hcap⟩ := ih
          { s with mWritePosition := s.mWritePosition + req.1 } (by
            show s.mWritePosition + req.1 + _ ≤ bound
            omega)
        refine ⟨?_, ?_, hcap⟩
        · intro r hr
          rcases List.mem_cons.mp hr with rfl | hr
          · exact ⟨Nat.le_refl _, by show s.mWritePosition + req.1 ≤ bound; omega⟩
          · have h := hranges r hr
            have h1 : s.mWritePosition + req.1 ≤ r.1 := h.1
            exact ⟨by omega, h.2⟩
        · rw [hcursor]
          show s.mWritePosition + req.1 + _ = _
          omega

/-- Claim C19: for every streaming interface whose capacity and pending request are
`size_t` values and whose `mWritePosition + mRequiredSpace` does not overflow, after
`reserveRequiredSpace` with pending request `R` the write position plus `R` is at most
the capacity; so consecutive maps whose sizes total at most `R` are each handed a byte
range that ends within the capacity, and they leave the write position at most the
capacity. The hypothesis `mWritePosition ≤ mBufferSize` of the claim is not needed. -/
theorem streaming_reserve_room (w mCurrentSerial : Nat) (s : StreamingVertexBufferInterface)
    (createResult : Option Nat)
    (hcap : s.mBufferSize < SIZE_RANGE w) (hreq : s.mRequiredSpace < SIZE_RANGE w)
    (hfit : s.mWritePosition + s.mRequiredSpace < SIZE_RANGE w) :
    (s.reserveRequiredSpace w mCurrentSerial createResult).self.mWritePosition +
        s.mRequiredSpace ≤
      (s.reserveRequiredSpace w mCurrentSerial createResult).self.mBufferSize ∧
    ∀ reqs : List (Nat × Option Nat),
      (((s.reserveRequiredSpace w mCurrentSerial createResult).self.mapAll w reqs).map
        Prod.snd).sum ≤ s.mRequiredSpace →
      (∀ r ∈ (s.reserveRequiredSpace w mCurrentSerial createResult).self.mapAll w reqs,
        r.1 + r.2 ≤ (s.reserveRequiredSpace w mCurrentSerial createResult).self.mBufferSize) ∧
      ((s.reserveRequiredSpace w mCurrentSerial createResult).self.mapAllSelf w
          reqs).mWritePosition ≤
        ((s.reserveRequiredSpace w mCurrentSerial createResult).self.mapAllSelf w
          reqs).mBufferSize := by
  have hroom : (s.reserveRequiredSpace w mCurrentSerial createResult).self.mWritePosition +
        s.mRequiredSpace ≤
      (s.reserveRequiredSpace w mCurrentSerial createResult).self.mBufferSize ∧
      (s.reserveRequiredSpace w mCurrentSerial createResult).self.mBufferSize <
        SIZE_RANGE w := by
    unfold StreamingVertexBufferInterface.reserveRequiredSpace
    split_ifs with hgrow hrec
    · constructor
      · show 0 + s.mRequiredSpace ≤ max s.mRequiredSpace _
        rw [Nat.zero_add]
        exact Nat.le_max_left _ _
      · show max s.mRequiredSpace (3 * s.mBufferSize % SIZE_RANGE w / 2) < SIZE_RANGE w
        have hmod : 3 * s.mBufferSize % SIZE_RANGE w < SIZE_RANGE w :=
          Nat.mod_lt _ (Nat.lt_of_le_of_lt (Nat.zero_le _) hreq)
        have hhalf : 3 * s.mBufferSize % SIZE_RANGE w / 2 < SIZE_RANGE w :=
          Nat.lt_of_le_of_lt (Nat.div_le_self _ _) hmod
        exact max_lt hreq hhalf
    · constructor
      · show 0 + s.mRequiredSpace ≤ s.mBufferSize
        omega
      · exact hcap
    · constructor
      · show s.mWritePosition + s.mRequiredSpace ≤ s.mBufferSize
        rw [Nat.mod_eq_of_lt hfit] at hrec
        omega
      · exact hcap
  refine ⟨hroom.1, ?_⟩
  intro reqs hsum
  obtain ⟨hranges, hcursor, hsame⟩ := streaming_mapAll_inside w _ hroom.2 reqs
    (s.reserveRequiredSpace w mCurrentSerial createResult).self (by
      have := hroom.1
      omega)
  refine ⟨fun r hr => (hranges r hr).2, ?_⟩
  rw [hcursor, hsame]
  have := hroom.1
  omega

/-- An instance of claim C19: capacity 100, write position 40, request 70; the pass
recycles, and maps of 30 and 40 bytes are handed the ranges starting at 0 and 30. -/
theorem streaming_reserve_room_witness :
    (StreamingVertexBufferInterface.reserveRequiredSpace 32 2
        ⟨⟨some 0, some 1, 100, 40, 70⟩⟩ none).self = ⟨⟨some 0, some 1, 100, 0, 0⟩⟩ ∧
      StreamingVertexBufferInterface.mapAll 32
        (StreamingVertexBufferInterface.reserveRequiredSpace 32 2
          ⟨⟨some 0, some 1, 100, 40, 70⟩⟩ none).self
        [(30, some 7), (40, some 7)] = [(0, 30), (30, 40)] ∧
      (StreamingVertexBufferInterface.mapAllSelf 32
        (StreamingVertexBufferInterface.reserveRequiredSpace 32 2
          ⟨⟨some 0, some 1, 100, 40, 70⟩⟩ none).self
        [(30, some 7), (40, some 7)]).mWritePosition ≤
      (StreamingVertexBufferInterface.mapAllSelf 32
        (StreamingVertexBufferInterface.reserveRequiredSpace 32 2
          ⟨⟨some 0, some 1, 100, 40, 70⟩⟩ none).self
        [(30, some 7), (40, some 7)]).mBufferSize :=
  have h := streaming_reserve_room 32 2 ⟨⟨some 0, some 1, 100, 40, 70⟩⟩ none
    (by decide) (by decide) (by decide)
  ⟨by decide, by decide, (h.2 [(30, some 7), (40, some 7)] (by decide)).2⟩

/-! ## When a streaming pass asks the backend for a resource -/

/-- Claim C20: a streaming pass calls `createVertexBuffer` if and only if
`mRequiredSpace > mBufferSize`. A pass with `mRequiredSpace ≤ mBufferSize` neither
releases nor replaces the resource and draws no serial; so over every sequence of
calls in which no pass is met with `mRequiredSpace > mBufferSize`, an absent resource
stays absent and `map` returns `NULL` without changing the object. A growth pass whose
`createVertexBuffer` fails records the new capacity, draws a serial from the counter
and sets the write position to 0, and leaves the resource absent. -/
theorem streaming_reserve_creates_iff (w mCurrentSerial : Nat)
    (s : StreamingVertexBufferInterface) (createResult : Option Nat) :
    ((∃ size usage, BackendCall.createVertexBuffer size usage ∈
        (s.reserveRequiredSpace w mCurrentSerial createResult).calls) ↔
      s.mRequiredSpace > s.mBufferSize) ∧
    (s.mRequiredSpace ≤ s.mBufferSize →
      (s.reserveRequiredSpace w mCurrentSerial createResult).self.mVertexBuffer =
          s.mVertexBuffer ∧
        (s.reserveRequiredSpace w mCurrentSerial createResult).self.mSerial = s.mSerial ∧
        (s.reserveRequiredSpace w mCurrentSerial createResult).mCurrentSerial =
          mCurrentSerial ∧
        BackendCall.Release ∉ (s.reserveRequiredSpace w mCurrentSerial createResult).calls) ∧
    (∀ (ops : List StreamingOp) (st : Nat × StreamingVertexBufferInterface),
      st.2.mVertexBuffer = none → StreamingOp.noGrowth w st ops →
      (StreamingOp.run w st ops).2.mVertexBuffer = none ∧
        ∀ (requiredSpace : Nat) (lockResult : Option Nat),
          ((StreamingOp.run w st ops).2.map w requiredSpace lockResult).mapPtr = none ∧
            ((StreamingOp.run w st ops).2.map w requiredSpace lockResult).self =
              (StreamingOp.run w st ops).2) ∧
    (s.mRequiredSpace > s.mBufferSize →
      (s.reserveRequiredSpace w mCurrentSerial none).self.mVertexBuffer = none ∧
        (s.reserveRequiredSpace w mCurrentSerial none).self.mBufferSize =
          max s.mRequiredSpace (3 * s.mBufferSize % SIZE_RANGE w / 2) ∧
        (s.reserveRequiredSpace w mCurrentSerial none).self.mSerial = some mCurrentSerial ∧
        (s.reserveRequiredSpace w mCurrentSerial none).mCurrentSerial =
          (mCurrentSerial + 1) % UINT_RANGE ∧
        (s.reserveRequiredSpace w mCurrentSerial none).self.mWritePosition = 0) := by
  refine ⟨?_, ?_, ?_, ?_⟩
  · unfold StreamingVertexBufferInterface.reserveRequiredSpace
    split_ifs with hgrow hrec
    · simp only [hgrow, iff_true]
      exact ⟨_, _, List.mem_append_right _ (List.mem_singleton.mpr rfl)⟩
    · cases s.mVertexBuffer <;> simp [hgrow]
    · simp [hgrow]
  · intro hle
    have hng : ¬ s.mRequiredSpace > s.mBufferSize := Nat.not_lt.mpr hle
    unfold StreamingVertexBufferInterface.reserveRequiredSpace
    rw [if_neg hng]
    split_ifs with hrec
    · refine ⟨rfl, rfl, rfl, ?_⟩
      cases s.mVertexBuffer <;> simp
    · exact ⟨rfl, rfl, rfl, by simp⟩
  · intro ops st habsent hno
    have hrun := streaming_run_keeps_absent w ops st habsent (noGrowth_noCreation w ops st hno)
    refine ⟨hrun, ?_⟩
    intro requiredSpace lockResult
    simp [StreamingVertexBufferInterface.map, hrun]
  · intro hgrow
    simp only [StreamingVertexBufferInterface.reserveRequiredSpace, if_pos hgrow,
      VertexBufferInterface.issueSerial]
    exact ⟨trivial, trivial, trivial, trivial, trivial⟩

/-- An instance of claim C20: after a failed allocation at construction with 1024
bytes, a pass with 512 pending makes no backend call and `map` still returns `NULL`; a
pass with 2048 pending whose allocation fails records capacity 2048 and serial 2. -/
theorem streaming_reserve_creates_iff_witness :
    (StreamingVertexBufferInterface.reserveRequiredSpace 32 2
        ⟨⟨none, some 1, 1024, 0, 512⟩⟩ (some 5)).calls = [] ∧
      (StreamingVertexBufferInterface.map 32
        (StreamingOp.run 32 (2, (StreamingVertexBufferInterface.construct 1 1024 none).self)
          [StreamingOp.addRequiredSpace 512, StreamingOp.reserveRequiredSpace (some 5)]).2
        512 (some 7)).mapPtr = none ∧
      (StreamingVertexBufferInterface.reserveRequiredSpace 32 2
        ⟨⟨none, some 1, 1024, 0, 2048⟩⟩ none).self = ⟨⟨none, some 2, 2048, 0, 0⟩⟩ :=
  have h := streaming_reserve_creates_iff 32 2 ⟨⟨none, some 1, 1024, 0, 2048⟩⟩ none
  ⟨by decide,
    ((h.2.2.1
      [StreamingOp.addRequiredSpace 512, StreamingOp.reserveRequiredSpace (some 5)]
      (2, (StreamingVertexBufferInterface.construct 1 1024 none).self) (by decide)
      (by decide)).2 512 (some 7)).1,
    by decide⟩

/-! ## Strides of the cached entries -/

/-- In every state a static interface reaches from its construction, no cached entry
has stride 0: `map` pushes an entry only after `attribute.mOffset % attribute.stride()`
was evaluated with a stride other than 0. So `lookupAttribute`, which evaluates that
remainder only against an entry whose stride equals the attribute's, never divides by
zero on such a cache. -/
theorem static_cache_strides (w mCurrentSerial : Nat) (ops : List StaticOp) :
    ∀ e ∈ (StaticOp.run w (mCurrentSerial,
      (StaticVertexBufferInterface.construct mCurrentSerial).self) ops).2.mCache,
      e.stride ≠ 0 := by
  have hstep : ∀ (st : Nat × StaticVertexBufferInterface) (op : StaticOp),
      (∀ e ∈ st.2.mCache, e.stride ≠ 0) →
      ∀ e ∈ (StaticOp.apply w st op).2.mCache, e.stride ≠ 0 := by
    intro st op hinv
    cases op with
    | addRequiredSpace n => exact hinv
    | reserveRequiredSpace createResult =>
      simp only [StaticOp.apply, StaticVertexBufferInterface.reserveRequiredSpace]
      split_ifs <;> exact hinv
    | map attrib n lockResult =>
      simp only [StaticOp.apply, StaticVertexBufferInterface.map]
      cases st.2.mVertexBuffer with
      | none => exact hinv
      | some buffer =>
        cases lockResult with
        | none => exact hinv
        | some p =>
          split_ifs with hz
          · exact hinv
          · intro e he
            rcases List.mem_append.mp he with h | h
            · exact hinv e h
            · rw [List.mem_singleton.mp h]
              exact hz
    | unmap => exact hinv
    | lookupAttribute attrib => exact hinv
  have hrun : ∀ (ops : List StaticOp) (st : Nat × StaticVertexBufferInterface),
      (∀ e ∈ st.2.mCache, e.stride ≠ 0) →
      ∀ e ∈ (StaticOp.run w st ops).2.mCache, e.stride ≠ 0 := by
    intro ops
    induction ops with
    | nil => intro st h; exact h
    | cons op rest ih => intro st h; exact ih _ (hstep st op h)
  exact hrun ops _ (fun e he => by cases he)

end rx
